import Mathlib

/-!
# Verification of the change-request application engine

Shallow embedding of the change-request application core of the
AI-Architecture-Hub repository (`packages/api/src/code-generator.ts`:
`applyChangeRequestToSpec`, `validateSpec`, `validateCircularRelations`,
`sanitizePath`, `computeChangePreview`, `collectImpactedFiles`,
`generateImpactSummary`) over the data model declared in the core types
module (`Spec`, `Entity`, `Endpoint`, `Requirement`, `ChangeOperation`,
`ChangeConflict`, `ChangeImpact`, `ChangeRequest`).

Modelling conventions:
- JavaScript strings are `String`; `===`/`!==` on strings are `=`/`≠`.
- TypeScript string-literal unions (`method`, relation `type`, HTTP verbs)
  are modelled as `String`, which matches the untyped JSON runtime data the
  core must accept per its external-interface contract.
- `any`-typed JSON payloads (`Endpoint.schema`, conflict `details`) are a
  JSON value type `JValue` (numbers as `Int`: no claim touches numeric
  payloads, so IEEE floats are not modelled).
- Arrays are `List`; in-place mutation of an object found by `find` is
  replacement of the first matching list element; `Array.filter` is
  `List.filter`; `push` is append.
- JS `Set<string>` is a duplicate-free `List String` grown by
  insert-if-absent (insertion order, as JS sets iterate in insertion order).
- Optional record keys (`details?`, `affectedEntities?`, patch fields) are
  `Option`; JS truthiness of an optional string (`if (patch.name)`) is
  "present and non-empty".
- The JS mutable frame of `applyChangeRequestToSpec` (the `currentSpec`
  argument and the `workingSpec` deep copy) is an explicit state record
  `ApplyState`; every mutation statement of the source writes the
  `working` field.
- The recursive DFS `visit` of `validateCircularRelations` is embedded with
  a fuel parameter; fuel `entities.length + 1` dominates the recursion
  depth (each frame that passes the stack/visited guards adds a fresh id to
  `visited`, and a guarded frame adds at most one more level), so the
  fuel-0 branch is unreachable at the fuel the top-level entry point uses.
- The `features?` field and the `[key: string]: any` index signature of
  `Spec` are untouched passengers of every code path considered here and
  are omitted from the record; the declared descriptive passenger fields
  are kept.
- The external `json-diff` library output (`diff`) is outside the model
  (the spec fixes no diff format); it is a `Unit` placeholder.
-/

namespace Hub

-- JSON value (`any` payloads). Numbers are modelled as `Int`.
mutual
inductive JValue where
  | null : JValue
  | boolean : Bool → JValue
  | number : Int → JValue
  | string : String → JValue
  | array : JArray → JValue
  | object : JObject → JValue
deriving DecidableEq

inductive JArray where
  | nil : JArray
  | cons : JValue → JArray → JArray
deriving DecidableEq

inductive JObject where
  | nil : JObject
  | cons : String → JValue → JObject → JObject
deriving DecidableEq
end

-- `FolderStructure`: recursive mapping name → nested structure or
-- null-for-file: a JS object whose values are nested structures or null.
mutual
inductive FolderStructure where
  | mk : FolderEntries → FolderStructure
deriving DecidableEq

inductive FolderEntries where
  | nil : FolderEntries
  | file : String → FolderEntries → FolderEntries
  | dir : String → FolderStructure → FolderEntries → FolderEntries
deriving DecidableEq
end

structure Requirement where
  id : String
  description : String
deriving DecidableEq

structure Field where
  name : String
  type : String
deriving DecidableEq

structure Relation where
  target : String
  type : String
deriving DecidableEq

structure Entity where
  id : String
  name : String
  fields : List Field
  relations : List Relation
deriving DecidableEq

structure Endpoint where
  id : String
  method : String
  path : String
  schema : JValue
deriving DecidableEq

structure DomainProperty where
  name : String
  type : String
  description : Option String
deriving DecidableEq

structure DomainModelDetail where
  entityId : String
  description : String
  properties : List DomainProperty
  relations : List Relation
  businessRules : List String
  crudEndpoints : List String
deriving DecidableEq

structure ApiEndpointOverview where
  id : String
  method : String
  path : String
  summary : String
  requestSchema : Option JValue
  responseSchema : Option JValue
deriving DecidableEq

structure ColumnOverview where
  name : String
  type : String
  notes : Option String
deriving DecidableEq

structure TableOverview where
  name : String
  description : Option String
  columns : List ColumnOverview
deriving DecidableEq

structure DatabaseSchemaOverview where
  engine : String
  prismaSchema : String
  tables : List TableOverview
deriving DecidableEq

structure GeneratedDocuments where
  requirements : String
  adrSuggestions : List String
  notes : Option String
deriving DecidableEq

structure FeatureIdea where
  title : String
  description : String
  impactAreas : List String
deriving DecidableEq

structure Spec where
  requirements : List Requirement
  entities : List Entity
  endpoints : List Endpoint
  folder_structure : FolderStructure
  systemOverview : String
  contextDiagram : String
  domainModel : List DomainModelDetail
  apiOverview : List ApiEndpointOverview
  databaseSchemaOverview : DatabaseSchemaOverview
  generatedDocuments : GeneratedDocuments
  featureIdeas : List FeatureIdea
deriving DecidableEq

-- `Partial<T>` patches: every key optional; a present key overwrites on
-- `Object.assign` merge.
structure RequirementPatch where
  id : Option String
  description : Option String
deriving DecidableEq

structure EntityPatch where
  id : Option String
  name : Option String
  fields : Option (List Field)
  relations : Option (List Relation)
deriving DecidableEq

structure EndpointPatch where
  id : Option String
  method : Option String
  path : Option String
  schema : Option JValue
deriving DecidableEq

/-- The closed tagged union of change operations, plus the
`unknownOperation` variant for untyped input whose `type` string falls
outside the closed set (the `default` arm of the source's switch). -/
inductive ChangeOperation where
  | addRequirement (requirement : Requirement)
  | updateRequirement (requirementId : String) (patch : RequirementPatch)
  | removeRequirement (requirementId : String)
  | addEntity (entity : Entity)
  | updateEntity (entityId : String) (patch : EntityPatch)
  | removeEntity (entityId : String)
  | addEndpoint (endpoint : Endpoint)
  | updateEndpoint (endpointId : String) (patch : EndpointPatch)
  | removeEndpoint (endpointId : String)
  | updateFolderStructure (folder_structure : FolderStructure)
  | unknownOperation (tyName : String)
deriving DecidableEq

/-- Conflict categories: `naming`, `missing-field`, `circular-relation`,
`validation`. -/
inductive ConflictType where
  | naming
  | missingField
  | circularRelation
  | validation
deriving DecidableEq

structure ChangeConflict where
  type : ConflictType
  message : String
  details : Option JObject
deriving DecidableEq

structure ChangeImpact where
  description : String
  affectedEntities : Option (List String)
  affectedEndpoints : Option (List String)
  affectedFiles : Option (List String)
deriving DecidableEq

structure ChangeRequest where
  summary : String
  operations : List ChangeOperation
deriving DecidableEq

/-- `Object.assign(requirement, patch)`. -/
def applyRequirementPatch (r : Requirement) (p : RequirementPatch) : Requirement :=
  { id := p.id.getD r.id, description := p.description.getD r.description }

/-- `Object.assign(entity, patch)`. -/
def applyEntityPatch (e : Entity) (p : EntityPatch) : Entity :=
  { id := p.id.getD e.id, name := p.name.getD e.name,
    fields := p.fields.getD e.fields, relations := p.relations.getD e.relations }

/-- `Object.assign(endpoint, patch)`. -/
def applyEndpointPatch (e : Endpoint) (p : EndpointPatch) : Endpoint :=
  { id := p.id.getD e.id, method := p.method.getD e.method,
    path := p.path.getD e.path, schema := p.schema.getD e.schema }

/-- JS truthiness of an optional string value: present and non-empty. -/
def jsTruthy : Option String → Bool
  | none => false
  | some s => !(s == "")

/-- Replace the first element satisfying `p` by its image under `f`: the
JS idiom of mutating in place the object returned by `Array.find`. -/
def updateFirst (p : α → Bool) (f : α → α) : List α → List α
  | [] => []
  | x :: rest => if p x then f x :: rest else x :: updateFirst p f rest

-- `sanitizePath`: `/`→`_`, then any character outside `[a-zA-Z0-9_]`→`_`,
-- strip leading and trailing `_` runs, defaulting to "root" when empty.
def sanitizePath (path : String) : String :=
  let slashed := path.data.map (fun c => if c == '/' then '_' else c)
  let cleaned := slashed.map (fun c => if c.isAlphanum || c == '_' then c else '_')
  let front := cleaned.dropWhile (fun c => c == '_')
  let trimmed := (front.reverse.dropWhile (fun c => c == '_')).reverse
  if trimmed.isEmpty then "root" else String.mk trimmed

-- `String.prototype.includes` (substring containment).
def listHasPre : List Char → List Char → Bool
  | [], _ => true
  | _ :: _, [] => false
  | p :: ps, c :: cs => p == c && listHasPre ps cs

def listHasSub (pat : List Char) : List Char → Bool
  | [] => pat.isEmpty
  | c :: cs => listHasPre pat (c :: cs) || listHasSub pat cs

def strIncludes (s pat : String) : Bool := listHasSub pat.data s.data

-- Deep copy: the `JSON.parse(JSON.stringify(currentSpec))` round trip,
-- written as a full structural copy of every component.
mutual
def deepCopyJValue : JValue → JValue
  | .null => .null
  | .boolean b => .boolean b
  | .number n => .number n
  | .string s => .string s
  | .array a => .array (deepCopyJArray a)
  | .object o => .object (deepCopyJObject o)

def deepCopyJArray : JArray → JArray
  | .nil => .nil
  | .cons v rest => .cons (deepCopyJValue v) (deepCopyJArray rest)

def deepCopyJObject : JObject → JObject
  | .nil => .nil
  | .cons k v rest => .cons k (deepCopyJValue v) (deepCopyJObject rest)
end

mutual
def deepCopyFolderStructure : FolderStructure → FolderStructure
  | .mk entries => .mk (deepCopyFolderEntries entries)

def deepCopyFolderEntries : FolderEntries → FolderEntries
  | .nil => .nil
  | .file name rest => .file name (deepCopyFolderEntries rest)
  | .dir name sub rest =>
      .dir name (deepCopyFolderStructure sub) (deepCopyFolderEntries rest)
end

def deepCopyRequirement (r : Requirement) : Requirement :=
  ⟨r.id, r.description⟩

def deepCopyField (f : Field) : Field := ⟨f.name, f.type⟩

def deepCopyRelation (r : Relation) : Relation := ⟨r.target, r.type⟩

def deepCopyEntity (e : Entity) : Entity :=
  ⟨e.id, e.name, e.fields.map deepCopyField, e.relations.map deepCopyRelation⟩

def deepCopyEndpoint (e : Endpoint) : Endpoint :=
  ⟨e.id, e.method, e.path, deepCopyJValue e.schema⟩

def deepCopyDomainProperty (p : DomainProperty) : DomainProperty :=
  ⟨p.name, p.type, p.description⟩

def deepCopyDomainModelDetail (d : DomainModelDetail) : DomainModelDetail :=
  ⟨d.entityId, d.description, d.properties.map deepCopyDomainProperty,
   d.relations.map deepCopyRelation, d.businessRules, d.crudEndpoints⟩

def deepCopyApiEndpointOverview (a : ApiEndpointOverview) : ApiEndpointOverview :=
  ⟨a.id, a.method, a.path, a.summary, a.requestSchema.map deepCopyJValue,
   a.responseSchema.map deepCopyJValue⟩

def deepCopyColumnOverview (c : ColumnOverview) : ColumnOverview :=
  ⟨c.name, c.type, c.notes⟩

def deepCopyTableOverview (t : TableOverview) : TableOverview :=
  ⟨t.name, t.description, t.columns.map deepCopyColumnOverview⟩

def deepCopyDatabaseSchemaOverview (d : DatabaseSchemaOverview) : DatabaseSchemaOverview :=
  ⟨d.engine, d.prismaSchema, d.tables.map deepCopyTableOverview⟩

def deepCopyGeneratedDocuments (g : GeneratedDocuments) : GeneratedDocuments :=
  ⟨g.requirements, g.adrSuggestions, g.notes⟩

def deepCopyFeatureIdea (f : FeatureIdea) : FeatureIdea :=
  ⟨f.title, f.description, f.impactAreas⟩

def deepCopySpec (s : Spec) : Spec :=
  ⟨s.requirements.map deepCopyRequirement,
   s.entities.map deepCopyEntity,
   s.endpoints.map deepCopyEndpoint,
   deepCopyFolderStructure s.folder_structure,
   s.systemOverview, s.contextDiagram,
   s.domainModel.map deepCopyDomainModelDetail,
   s.apiOverview.map deepCopyApiEndpointOverview,
   deepCopyDatabaseSchemaOverview s.databaseSchemaOverview,
   deepCopyGeneratedDocuments s.generatedDocuments,
   s.featureIdeas.map deepCopyFeatureIdea⟩

-- Per-operation cores over the single list each switch case touches.
-- Each returns (new list, conflicts pushed, impacts pushed).

def addRequirementCore (requirements : List Requirement) (requirement : Requirement) :
    List Requirement × List ChangeConflict × List ChangeImpact :=
  if requirements.any (fun req => req.id == requirement.id) then
    (requirements,
     [⟨.naming, "Requirement with id " ++ requirement.id ++ " already exists",
       some (.cons "requirementId" (.string requirement.id) .nil)⟩], [])
  else
    (requirements ++ [requirement], [],
     [⟨"Requirement added", none, none, some ["docs/requirements.md"]⟩])

def updateRequirementCore (requirements : List Requirement) (requirementId : String)
    (patch : RequirementPatch) :
    List Requirement × List ChangeConflict × List ChangeImpact :=
  match requirements.find? (fun req => req.id == requirementId) with
  | none =>
    (requirements,
     [⟨.missingField, "Requirement " ++ requirementId ++ " not found",
       some (.cons "requirementId" (.string requirementId) .nil)⟩], [])
  | some _ =>
    (updateFirst (fun req => req.id == requirementId)
       (fun req => applyRequirementPatch req patch) requirements, [],
     [⟨"Requirement updated", none, none, some ["docs/requirements.md"]⟩])

def removeRequirementCore (requirements : List Requirement) (requirementId : String) :
    List Requirement × List ChangeConflict × List ChangeImpact :=
  let filtered := requirements.filter (fun req => !(req.id == requirementId))
  if filtered.length == requirements.length then
    (filtered,
     [⟨.missingField, "Requirement " ++ requirementId ++ " not found for removal",
       some (.cons "requirementId" (.string requirementId) .nil)⟩], [])
  else
    (filtered, [],
     [⟨"Requirement removed", none, none, some ["docs/requirements.md"]⟩])

def addEntityCore (entities : List Entity) (entity : Entity) :
    List Entity × List ChangeConflict × List ChangeImpact :=
  if entities.any (fun item => item.name == entity.name) then
    (entities,
     [⟨.naming, "Entity with name " ++ entity.name ++ " already exists",
       some (.cons "entityName" (.string entity.name) .nil)⟩], [])
  else
    (entities ++ [entity], [],
     [⟨"Entity " ++ entity.name ++ " added", some [entity.name], none,
       some ["prisma/schema.prisma", "src/entities/" ++ entity.name ++ ".ts"]⟩])

/-- Success path of `updateEntity`: merge the patch onto the first entity
with the given id and record the impact under the merged name. -/
def updateEntityMerge (entities : List Entity) (entityId : String) (entity : Entity)
    (patch : EntityPatch) :
    List Entity × List ChangeConflict × List ChangeImpact :=
  let merged := applyEntityPatch entity patch
  (updateFirst (fun item => item.id == entityId)
     (fun item => applyEntityPatch item patch) entities, [],
   [⟨"Entity " ++ merged.name ++ " updated", some [merged.name], none,
     some ["prisma/schema.prisma", "src/entities/" ++ merged.name ++ ".ts"]⟩])

def updateEntityCore (entities : List Entity) (entityId : String) (patch : EntityPatch) :
    List Entity × List ChangeConflict × List ChangeImpact :=
  match entities.find? (fun item => item.id == entityId) with
  | none =>
    (entities,
     [⟨.missingField, "Entity " ++ entityId ++ " not found",
       some (.cons "entityId" (.string entityId) .nil)⟩], [])
  | some entity =>
    match patch.name with
    | some newName =>
      if !(newName == "") &&
          entities.any (fun other => !(other.id == entityId) && other.name == newName) then
        (entities,
         [⟨.naming, "Entity name " ++ newName ++ " already in use",
           some (.cons "entityId" (.string entityId)
             (.cons "newName" (.string newName) .nil))⟩], [])
      else updateEntityMerge entities entityId entity patch
    | none => updateEntityMerge entities entityId entity patch

def removeEntityCore (entities : List Entity) (entityId : String) :
    List Entity × List ChangeConflict × List ChangeImpact :=
  match entities.find? (fun item => item.id == entityId) with
  | none =>
    (entities,
     [⟨.missingField, "Entity " ++ entityId ++ " not found for removal",
       some (.cons "entityId" (.string entityId) .nil)⟩], [])
  | some entity =>
    (entities.filter (fun item => !(item.id == entityId)), [],
     [⟨"Entity " ++ entity.name ++ " removed", some [entity.name], none,
       some ["prisma/schema.prisma"]⟩])

def addEndpointCore (endpoints : List Endpoint) (endpoint : Endpoint) :
    List Endpoint × List ChangeConflict × List ChangeImpact :=
  if endpoints.any (fun item => item.path == endpoint.path && item.method == endpoint.method) then
    (endpoints,
     [⟨.naming, "Endpoint " ++ endpoint.method ++ " " ++ endpoint.path ++ " already exists",
       some (.cons "method" (.string endpoint.method)
         (.cons "path" (.string endpoint.path) .nil))⟩], [])
  else
    (endpoints ++ [endpoint], [],
     [⟨"Endpoint " ++ endpoint.method ++ " " ++ endpoint.path ++ " added", none,
       some [endpoint.method ++ " " ++ endpoint.path],
       some ["openapi.json", "src/routes/" ++ sanitizePath endpoint.path ++ ".ts"]⟩])

/-- Success path of `updateEndpoint`. -/
def updateEndpointMerge (endpoints : List Endpoint) (endpointId : String)
    (endpoint : Endpoint) (patch : EndpointPatch) :
    List Endpoint × List ChangeConflict × List ChangeImpact :=
  let merged := applyEndpointPatch endpoint patch
  (updateFirst (fun item => item.id == endpointId)
     (fun item => applyEndpointPatch item patch) endpoints, [],
   [⟨"Endpoint " ++ merged.method ++ " " ++ merged.path ++ " updated", none,
     some [merged.method ++ " " ++ merged.path],
     some ["openapi.json", "src/routes/" ++ sanitizePath merged.path ++ ".ts"]⟩])

def updateEndpointCore (endpoints : List Endpoint) (endpointId : String)
    (patch : EndpointPatch) :
    List Endpoint × List ChangeConflict × List ChangeImpact :=
  match endpoints.find? (fun item => item.id == endpointId) with
  | none =>
    (endpoints,
     [⟨.missingField, "Endpoint " ++ endpointId ++ " not found",
       some (.cons "endpointId" (.string endpointId) .nil)⟩], [])
  | some endpoint =>
    if jsTruthy patch.path || jsTruthy patch.method then
      let newPath := patch.path.getD endpoint.path
      let newMethod := patch.method.getD endpoint.method
      if endpoints.any (fun other =>
          !(other.id == endpointId) && other.path == newPath && other.method == newMethod) then
        (endpoints,
         [⟨.naming, "Endpoint " ++ newMethod ++ " " ++ newPath ++ " already exists",
           some (.cons "endpointId" (.string endpointId)
             (.cons "path" (.string newPath)
               (.cons "method" (.string newMethod) .nil)))⟩], [])
      else updateEndpointMerge endpoints endpointId endpoint patch
    else updateEndpointMerge endpoints endpointId endpoint patch

def removeEndpointCore (endpoints : List Endpoint) (endpointId : String) :
    List Endpoint × List ChangeConflict × List ChangeImpact :=
  match endpoints.find? (fun item => item.id == endpointId) with
  | none =>
    (endpoints,
     [⟨.missingField, "Endpoint " ++ endpointId ++ " not found for removal",
       some (.cons "endpointId" (.string endpointId) .nil)⟩], [])
  | some endpoint =>
    (endpoints.filter (fun item => !(item.id == endpointId)), [],
     [⟨"Endpoint " ++ endpoint.method ++ " " ++ endpoint.path ++ " removed", none,
       some [endpoint.method ++ " " ++ endpoint.path],
       some ["openapi.json"]⟩])

/-- One switch arm of `applyChangeRequestToSpec`, acting on the working
spec: (spec after the arm, conflicts pushed, impacts pushed). -/
def applyOpPure (operation : ChangeOperation) (w : Spec) :
    Spec × List ChangeConflict × List ChangeImpact :=
  match operation with
  | .addRequirement requirement =>
    let res := addRequirementCore w.requirements requirement
    ({ w with requirements := res.1 }, res.2.1, res.2.2)
  | .updateRequirement requirementId patch =>
    let res := updateRequirementCore w.requirements requirementId patch
    ({ w with requirements := res.1 }, res.2.1, res.2.2)
  | .removeRequirement requirementId =>
    let res := removeRequirementCore w.requirements requirementId
    ({ w with requirements := res.1 }, res.2.1, res.2.2)
  | .addEntity entity =>
    let res := addEntityCore w.entities entity
    ({ w with entities := res.1 }, res.2.1, res.2.2)
  | .updateEntity entityId patch =>
    let res := updateEntityCore w.entities entityId patch
    ({ w with entities := res.1 }, res.2.1, res.2.2)
  | .removeEntity entityId =>
    let res := removeEntityCore w.entities entityId
    ({ w with entities := res.1 }, res.2.1, res.2.2)
  | .addEndpoint endpoint =>
    let res := addEndpointCore w.endpoints endpoint
    ({ w with endpoints := res.1 }, res.2.1, res.2.2)
  | .updateEndpoint endpointId patch =>
    let res := updateEndpointCore w.endpoints endpointId patch
    ({ w with endpoints := res.1 }, res.2.1, res.2.2)
  | .removeEndpoint endpointId =>
    let res := removeEndpointCore w.endpoints endpointId
    ({ w with endpoints := res.1 }, res.2.1, res.2.2)
  | .updateFolderStructure folder_structure =>
    ({ w with folder_structure := folder_structure }, [],
     [⟨"Folder structure updated", none, none, some ["scaffolding"]⟩])
  | .unknownOperation tyName =>
    (w, [⟨.validation, "Unsupported operation " ++ tyName, none⟩], [])

-- `validateSpec`: duplicate entity names (seen-set, second occurrence
-- flagged), per-field name/type sanity, duplicate `method:path` endpoint
-- signatures, then circular relations.

def fieldConflictsOf (entity : Entity) : List ChangeConflict :=
  (entity.fields.filter (fun f => f.name == "" || f.type == "")).map (fun f =>
    ⟨.missingField, "Entity " ++ entity.name ++ " has an invalid field definition",
     some (.cons "entityName" (.string entity.name)
       (.cons "field" (.object (.cons "name" (.string f.name)
         (.cons "type" (.string f.type) .nil))) .nil))⟩)

def validateEntitiesPass : List Entity → List String → List ChangeConflict
  | [], _ => []
  | entity :: rest, seen =>
    if seen.contains entity.name then
      (⟨.naming, "Duplicate entity name detected: " ++ entity.name,
        some (.cons "entityName" (.string entity.name) .nil)⟩
        :: fieldConflictsOf entity) ++ validateEntitiesPass rest seen
    else
      fieldConflictsOf entity ++ validateEntitiesPass rest (seen ++ [entity.name])

-- the per-endpoint `signature` is `method:path`
def validateEndpointsPass : List Endpoint → List String → List ChangeConflict
  | [], _ => []
  | endpoint :: rest, seen =>
    if seen.contains (endpoint.method ++ ":" ++ endpoint.path) then
      ⟨.naming, "Duplicate endpoint detected: " ++ endpoint.method ++ " " ++ endpoint.path,
        some (.cons "method" (.string endpoint.method)
          (.cons "path" (.string endpoint.path) .nil))⟩
        :: validateEndpointsPass rest seen
    else
      validateEndpointsPass rest (seen ++ [endpoint.method ++ ":" ++ endpoint.path])

-- `validateCircularRelations`: DFS with shared `visited`/`stack` sets; the
-- relation target is matched against entity name or id, first match wins.

structure DfsState where
  visited : List String
  stack : List String
  conflicts : List ChangeConflict
deriving DecidableEq

def resolveTarget (entities : List Entity) (target : String) : Option Entity :=
  entities.find? (fun item => item.name == target || item.id == target)

def circularConflict (entity : Entity) : ChangeConflict :=
  ⟨.circularRelation, "Circular relation detected involving " ++ entity.name,
   some (.cons "entityId" (.string entity.id)
     (.cons "entityName" (.string entity.name) .nil))⟩

/-- The relation loop of `visit`, parameterized by the recursive call. -/
def visitRelsWith (f : Entity → DfsState → Bool × DfsState) (entities : List Entity) :
    List Relation → DfsState → Bool × DfsState
  | [], st => (false, st)
  | relation :: rest, st =>
    match resolveTarget entities relation.target with
    | none => visitRelsWith f entities rest st
    | some targetEntity =>
      match f targetEntity st with
      | (true, st2) => (true, st2)
      | (false, st2) => visitRelsWith f entities rest st2

/-- The recursive `visit` closure, with a fuel parameter for the recursion
depth. The depth is bounded by the number of distinct entity ids plus one,
so the fuel-0 arm is unreachable from `validateCircularRelations`. On a
back edge the conflict is pushed and `true` propagates with the stack left
as is (the source never pops the stack on that path). -/
def visit (entities : List Entity) : Nat → Entity → DfsState → Bool × DfsState
  | 0, _, st => (false, st)
  | Nat.succ fuel, entity, st =>
    if st.stack.contains entity.id then
      (true, { st with conflicts := st.conflicts ++ [circularConflict entity] })
    else if st.visited.contains entity.id then
      (false, st)
    else
      let st1 := { st with visited := st.visited ++ [entity.id],
                           stack := st.stack ++ [entity.id] }
      match visitRelsWith (visit entities fuel) entities entity.relations st1 with
      | (true, st2) => (true, st2)
      | (false, st2) => (false, { st2 with stack := st2.stack.erase entity.id })

def dfsAll (entities : List Entity) (fuel : Nat) : List Entity → DfsState → DfsState
  | [], st => st
  | entity :: rest, st =>
    if st.visited.contains entity.id then dfsAll entities fuel rest st
    else dfsAll entities fuel rest (visit entities fuel entity st).2

def validateCircularRelations (entities : List Entity) : List ChangeConflict :=
  (dfsAll entities (entities.length + 1) entities ⟨[], [], []⟩).conflicts

def validateSpecCore (entities : List Entity) (endpoints : List Endpoint) :
    List ChangeConflict :=
  validateEntitiesPass entities [] ++ validateEndpointsPass endpoints []
    ++ validateCircularRelations entities

def validateSpec (spec : Spec) : List ChangeConflict :=
  validateSpecCore spec.entities spec.endpoints

-- The applier. `ApplyState` is the mutable frame of
-- `applyChangeRequestToSpec`: the `currentSpec` argument alongside the
-- `workingSpec` copy and the `conflicts`/`impacts` accumulators; every
-- mutation statement of the source writes `working`, `conflicts` or
-- `impacts`, never `current`.

structure ApplyState where
  current : Spec
  working : Spec
  conflicts : List ChangeConflict
  impacts : List ChangeImpact
deriving DecidableEq

def applyOpSt (st : ApplyState) (operation : ChangeOperation) : ApplyState :=
  match applyOpPure operation st.working with
  | (w2, cs, is) =>
    { st with working := w2, conflicts := st.conflicts ++ cs, impacts := st.impacts ++ is }

def applyChangeRequestToSpecSt (currentSpec : Spec) (changeRequest : ChangeRequest) :
    ApplyState :=
  let st0 : ApplyState := ⟨currentSpec, deepCopySpec currentSpec, [], []⟩
  let st1 := changeRequest.operations.foldl applyOpSt st0
  { st1 with conflicts := st1.conflicts ++ validateSpec st1.working }

structure ApplyResult where
  spec : Spec
  conflicts : List ChangeConflict
  impacts : List ChangeImpact
deriving DecidableEq

def applyChangeRequestToSpec (currentSpec : Spec) (changeRequest : ChangeRequest) :
    ApplyResult :=
  let st := applyChangeRequestToSpecSt currentSpec changeRequest
  ⟨st.working, st.conflicts, st.impacts⟩

structure ChangePreview where
  currentSpec : Spec
  proposedSpec : Spec
  diff : Unit
  conflicts : List ChangeConflict
  impacts : List ChangeImpact

def computeChangePreview (currentSpec : Spec) (changeRequest : ChangeRequest) :
    ChangePreview :=
  let result := applyChangeRequestToSpec currentSpec changeRequest
  ⟨currentSpec, result.spec, (), result.conflicts, result.impacts⟩

-- JS `Set<string>` built by repeated `add`, iterated in insertion order.
def setAdd (l : List String) (x : String) : List String :=
  if l.contains x then l else l ++ [x]

def setAddAll (l : List String) (xs : List String) : List String :=
  xs.foldl setAdd l

def collectImpactedFiles (preview : ChangePreview) : List String :=
  preview.impacts.foldl (fun files impact => setAddAll files (impact.affectedFiles.getD [])) []

structure ImpactSummary where
  totalChanges : Nat
  modifiedEntities : Nat
  modifiedEndpoints : Nat
  modifiedFiles : Nat
  newEntities : List String
  newEndpoints : List String
  removedEntities : List String
  removedEndpoints : List String
  hasConflicts : Bool
  conflictCount : Nat
deriving DecidableEq

structure SummaryState where
  entities : List String
  endpoints : List String
  files : List String
  newEntities : List String
  newEndpoints : List String
  removedEntities : List String
  removedEndpoints : List String
deriving DecidableEq

/-- One iteration of the `generateImpactSummary` forEach. A JS array value
is always truthy, so the `added`/`removed` pushes fire whenever the
corresponding key is present, spreading its (possibly empty) elements. -/
def summarizeImpact (acc : SummaryState) (impact : ChangeImpact) : SummaryState :=
  let acc1 := { acc with
    entities := setAddAll acc.entities (impact.affectedEntities.getD []),
    endpoints := setAddAll acc.endpoints (impact.affectedEndpoints.getD []),
    files := setAddAll acc.files (impact.affectedFiles.getD []) }
  let acc2 :=
    if strIncludes impact.description "added" then
      { acc1 with
        newEntities := acc1.newEntities ++ impact.affectedEntities.getD [],
        newEndpoints := acc1.newEndpoints ++ impact.affectedEndpoints.getD [] }
    else acc1
  if strIncludes impact.description "removed" then
    { acc2 with
      removedEntities := acc2.removedEntities ++ impact.affectedEntities.getD [],
      removedEndpoints := acc2.removedEndpoints ++ impact.affectedEndpoints.getD [] }
  else acc2

def generateImpactSummary (preview : ChangePreview) : ImpactSummary :=
  let st := preview.impacts.foldl summarizeImpact ⟨[], [], [], [], [], [], []⟩
  ⟨preview.impacts.length, st.entities.length, st.endpoints.length, st.files.length,
   st.newEntities, st.newEndpoints, st.removedEntities, st.removedEndpoints,
   decide (0 < preview.conflicts.length), preview.conflicts.length⟩

-- Loose input model: the spec arrives as plain JSON, so each of the three
-- walked lists may be absent. Iterating or `.some`-ing an absent list in
-- JS throws a TypeError, modelled by `Except.error`; the deep copy of a
-- loose spec preserves absent keys as absent.

structure LooseSpec where
  requirements : Option (List Requirement)
  entities : Option (List Entity)
  endpoints : Option (List Endpoint)
  folder_structure : FolderStructure
deriving DecidableEq

def validateSpecLoose (spec : LooseSpec) : Except String (List ChangeConflict) :=
  match spec.entities with
  | none => .error "TypeError: spec.entities is not iterable"
  | some entities =>
    match spec.endpoints with
    | none => .error "TypeError: spec.endpoints is not iterable"
    | some endpoints => .ok (validateSpecCore entities endpoints)

def applyOpLoose (operation : ChangeOperation) (w : LooseSpec) :
    Except String (LooseSpec × List ChangeConflict × List ChangeImpact) :=
  match operation with
  | .addRequirement requirement =>
    match w.requirements with
    | none => .error "TypeError: spec.requirements is undefined"
    | some requirements =>
      let res := addRequirementCore requirements requirement
      .ok ({ w with requirements := some res.1 }, res.2.1, res.2.2)
  | .updateRequirement requirementId patch =>
    match w.requirements with
    | none => .error "TypeError: spec.requirements is undefined"
    | some requirements =>
      let res := updateRequirementCore requirements requirementId patch
      .ok ({ w with requirements := some res.1 }, res.2.1, res.2.2)
  | .removeRequirement requirementId =>
    match w.requirements with
    | none => .error "TypeError: spec.requirements is undefined"
    | some requirements =>
      let res := removeRequirementCore requirements requirementId
      .ok ({ w with requirements := some res.1 }, res.2.1, res.2.2)
  | .addEntity entity =>
    match w.entities with
    | none => .error "TypeError: spec.entities is undefined"
    | some entities =>
      let res := addEntityCore entities entity
      .ok ({ w with entities := some res.1 }, res.2.1, res.2.2)
  | .updateEntity entityId patch =>
    match w.entities with
    | none => .error "TypeError: spec.entities is undefined"
    | some entities =>
      let res := updateEntityCore entities entityId patch
      .ok ({ w with entities := some res.1 }, res.2.1, res.2.2)
  | .removeEntity entityId =>
    match w.entities with
    | none => .error "TypeError: spec.entities is undefined"
    | some entities =>
      let res := removeEntityCore entities entityId
      .ok ({ w with entities := some res.1 }, res.2.1, res.2.2)
  | .addEndpoint endpoint =>
    match w.endpoints with
    | none => .error "TypeError: spec.endpoints is undefined"
    | some endpoints =>
      let res := addEndpointCore endpoints endpoint
      .ok ({ w with endpoints := some res.1 }, res.2.1, res.2.2)
  | .updateEndpoint endpointId patch =>
    match w.endpoints with
    | none => .error "TypeError: spec.endpoints is undefined"
    | some endpoints =>
      let res := updateEndpointCore endpoints endpointId patch
      .ok ({ w with endpoints := some res.1 }, res.2.1, res.2.2)
  | .removeEndpoint endpointId =>
    match w.endpoints with
    | none => .error "TypeError: spec.endpoints is undefined"
    | some endpoints =>
      let res := removeEndpointCore endpoints endpointId
      .ok ({ w with endpoints := some res.1 }, res.2.1, res.2.2)
  | .updateFolderStructure folder_structure =>
    .ok ({ w with folder_structure := folder_structure }, [],
      [⟨"Folder structure updated", none, none, some ["scaffolding"]⟩])
  | .unknownOperation tyName =>
    .ok (w, [⟨.validation, "Unsupported operation " ++ tyName, none⟩], [])

def applyLoose (currentSpec : LooseSpec) (changeRequest : ChangeRequest) :
    Except String (LooseSpec × List ChangeConflict × List ChangeImpact) := do
  let init : LooseSpec × List ChangeConflict × List ChangeImpact := (currentSpec, [], [])
  let acc ← changeRequest.operations.foldlM
    (fun acc operation => do
      let (w2, cs, is) ← applyOpLoose operation acc.1
      pure (w2, acc.2.1 ++ cs, acc.2.2 ++ is)) init
  let vcs ← validateSpecLoose acc.1
  pure (acc.1, acc.2.1 ++ vcs, acc.2.2)

/-- Embed a loose spec with all three lists present into the strict model,
passenger fields empty. -/
def embedSpec (requirements : List Requirement) (entities : List Entity)
    (endpoints : List Endpoint) (folder_structure : FolderStructure) : Spec :=
  ⟨requirements, entities, endpoints, folder_structure, "", "", [], [],
   ⟨"", "", []⟩, ⟨"", [], none⟩, []⟩

-- Proof-infrastructure relations for comparing two DFS runs whose entity
-- lists agree on ids, relations and fields (differing only in one name).
-- They embed nothing from the source; they only state the simulation.

def allTargets (entities : List Entity) : List String :=
  entities.flatMap fun e => e.relations.map fun r => r.target

def EntRel (e1 e2 : Entity) : Prop :=
  e1.id = e2.id ∧ e1.relations = e2.relations ∧ e1.fields = e2.fields

def optEntRel : Option Entity → Option Entity → Prop
  | none, none => True
  | some e1, some e2 => EntRel e1 e2
  | _, _ => False

def StRel (st1 st2 : DfsState) : Prop :=
  st1.visited = st2.visited ∧ st1.stack = st2.stack ∧
    st1.conflicts.length = st2.conflicts.length

/-!
## Theorems

Helper lemmas first, then one theorem per claim (with witnesses or
counterexamples where required).
-/

mutual
theorem deepCopyJValue_id : (v : JValue) → deepCopyJValue v = v
  | .null => rfl
  | .boolean _ => rfl
  | .number _ => rfl
  | .string _ => rfl
  | .array a => by rw [deepCopyJValue, deepCopyJArray_id a]
  | .object o => by rw [deepCopyJValue, deepCopyJObject_id o]

theorem deepCopyJArray_id : (a : JArray) → deepCopyJArray a = a
  | .nil => rfl
  | .cons v rest => by rw [deepCopyJArray, deepCopyJValue_id v, deepCopyJArray_id rest]

theorem deepCopyJObject_id : (o : JObject) → deepCopyJObject o = o
  | .nil => rfl
  | .cons k v rest => by rw [deepCopyJObject, deepCopyJValue_id v, deepCopyJObject_id rest]
end

mutual
theorem deepCopyFolderStructure_id : (f : FolderStructure) → deepCopyFolderStructure f = f
  | .mk entries => by rw [deepCopyFolderStructure, deepCopyFolderEntries_id entries]

theorem deepCopyFolderEntries_id : (e : FolderEntries) → deepCopyFolderEntries e = e
  | .nil => rfl
  | .file name rest => by rw [deepCopyFolderEntries, deepCopyFolderEntries_id rest]
  | .dir name sub rest => by
      rw [deepCopyFolderEntries, deepCopyFolderStructure_id sub, deepCopyFolderEntries_id rest]
end

theorem deepCopyRequirement_id (r : Requirement) : deepCopyRequirement r = r := rfl

theorem deepCopyEntity_id (e : Entity) : deepCopyEntity e = e := by
  simp [deepCopyEntity, deepCopyField, deepCopyRelation, List.map_id'']

theorem deepCopyEndpoint_id (e : Endpoint) : deepCopyEndpoint e = e := by
  simp [deepCopyEndpoint, deepCopyJValue_id]

theorem deepCopyDomainModelDetail_id (d : DomainModelDetail) :
    deepCopyDomainModelDetail d = d := by
  simp [deepCopyDomainModelDetail, deepCopyDomainProperty, deepCopyRelation, List.map_id'']

theorem map_deepCopyJValue_id (o : Option JValue) : o.map deepCopyJValue = o := by
  cases o <;> simp [deepCopyJValue_id]

theorem deepCopyApiEndpointOverview_id (a : ApiEndpointOverview) :
    deepCopyApiEndpointOverview a = a := by
  simp [deepCopyApiEndpointOverview, map_deepCopyJValue_id]

theorem deepCopyDatabaseSchemaOverview_id (d : DatabaseSchemaOverview) :
    deepCopyDatabaseSchemaOverview d = d := by
  simp [deepCopyDatabaseSchemaOverview, deepCopyTableOverview, deepCopyColumnOverview,
    List.map_id'']

/-- The JSON round-trip deep copy is the identity on the embedded data
model (which has no `undefined`, functions or cycles). -/
theorem deepCopySpec_id (s : Spec) : deepCopySpec s = s := by
  simp [deepCopySpec, deepCopyRequirement, deepCopyEntity_id, deepCopyEndpoint_id,
    deepCopyFolderStructure_id, deepCopyDomainModelDetail_id,
    deepCopyApiEndpointOverview_id, deepCopyDatabaseSchemaOverview_id,
    deepCopyGeneratedDocuments, deepCopyFeatureIdea, List.map_id'']

/-- Every operation leaves the `current` field of the apply state alone:
the fold over operations only writes `working`, `conflicts`, `impacts`. -/
theorem applyOpSt_current (st : ApplyState) (operation : ChangeOperation) :
    (applyOpSt st operation).current = st.current := by
  unfold applyOpSt
  cases applyOpPure operation st.working with
  | mk w2 rest => rfl

theorem foldl_applyOpSt_current (operations : List ChangeOperation) (st : ApplyState) :
    (operations.foldl applyOpSt st).current = st.current := by
  induction operations generalizing st with
  | nil => rfl
  | cons op rest ih => rw [List.foldl_cons, ih, applyOpSt_current]

/-- C2: applying a change request never mutates the `currentSpec`
argument. In the explicit-state embedding of the source's mutable frame,
the `current` cell still holds the original spec after the apply, and the
working copy the operations mutate is a deep, independent copy that (on
this data model) is value-equal to the input. -/
theorem apply_no_mutation (currentSpec : Spec) (changeRequest : ChangeRequest) :
    (applyChangeRequestToSpecSt currentSpec changeRequest).current = currentSpec ∧
    (applyChangeRequestToSpecSt currentSpec changeRequest).working =
      (applyChangeRequestToSpec currentSpec changeRequest).spec ∧
    deepCopySpec currentSpec = currentSpec := by
  refine ⟨?_, rfl, deepCopySpec_id currentSpec⟩
  unfold applyChangeRequestToSpecSt
  rw [foldl_applyOpSt_current]

theorem filter_length_eq {α : Type} (p : α → Bool) (l : List α)
    (h : (l.filter p).length = l.length) : l.filter p = l := by
  induction l with
  | nil => rfl
  | cons a l ih =>
    by_cases hpa : p a
    · simp only [List.filter_cons, hpa, if_true, List.length_cons] at h ⊢
      rw [ih (by omega)]
    · exfalso
      have hle := List.length_filter_le p l
      simp only [List.filter_cons, hpa, if_neg, Bool.false_eq_true, not_false_iff,
        List.length_cons] at h
      omega

-- Per-case frame lemmas: a switch arm that pushes a conflict leaves its
-- list untouched (the source `break`s before any mutation, and the
-- not-found `filter` of removeRequirement removes nothing).

theorem addRequirementCore_frame (rs : List Requirement) (r : Requirement) :
    (addRequirementCore rs r).2.1 ≠ [] → (addRequirementCore rs r).1 = rs := by
  unfold addRequirementCore; split <;> simp

theorem updateRequirementCore_frame (rs : List Requirement) (rid : String)
    (patch : RequirementPatch) :
    (updateRequirementCore rs rid patch).2.1 ≠ [] →
      (updateRequirementCore rs rid patch).1 = rs := by
  unfold updateRequirementCore; split <;> simp

theorem removeRequirementCore_frame (rs : List Requirement) (rid : String) :
    (removeRequirementCore rs rid).2.1 ≠ [] → (removeRequirementCore rs rid).1 = rs := by
  simp only [removeRequirementCore]
  split <;> intro h
  · next hlen => exact filter_length_eq _ rs (by simpa using hlen)
  · simp at h

theorem addEntityCore_frame (es : List Entity) (e : Entity) :
    (addEntityCore es e).2.1 ≠ [] → (addEntityCore es e).1 = es := by
  unfold addEntityCore; split <;> simp

theorem updateEntityCore_frame (es : List Entity) (eid : String) (patch : EntityPatch) :
    (updateEntityCore es eid patch).2.1 ≠ [] → (updateEntityCore es eid patch).1 = es := by
  unfold updateEntityCore
  split
  · simp
  · split
    · split
      · simp
      · simp [updateEntityMerge]
    · simp [updateEntityMerge]

theorem removeEntityCore_frame (es : List Entity) (eid : String) :
    (removeEntityCore es eid).2.1 ≠ [] → (removeEntityCore es eid).1 = es := by
  unfold removeEntityCore; split <;> simp

theorem addEndpointCore_frame (es : List Endpoint) (e : Endpoint) :
    (addEndpointCore es e).2.1 ≠ [] → (addEndpointCore es e).1 = es := by
  unfold addEndpointCore; split <;> simp

theorem updateEndpointCore_frame (es : List Endpoint) (eid : String)
    (patch : EndpointPatch) :
    (updateEndpointCore es eid patch).2.1 ≠ [] → (updateEndpointCore es eid patch).1 = es := by
  simp only [updateEndpointCore]
  split
  · simp
  · split
    · split
      · simp
      · simp [updateEndpointMerge]
    · simp [updateEndpointMerge]

theorem removeEndpointCore_frame (es : List Endpoint) (eid : String) :
    (removeEndpointCore es eid).2.1 ≠ [] → (removeEndpointCore es eid).1 = es := by
  unfold removeEndpointCore; split <;> simp

/-- An operation that reports a conflict leaves the working spec exactly
as it was. -/
theorem applyOpPure_conflict_frame (operation : ChangeOperation) (w : Spec) :
    (applyOpPure operation w).2.1 ≠ [] → (applyOpPure operation w).1 = w := by
  cases operation with
  | addRequirement r =>
    intro h
    simp only [applyOpPure] at h ⊢
    rw [addRequirementCore_frame w.requirements r h]
  | updateRequirement rid patch =>
    intro h
    simp only [applyOpPure] at h ⊢
    rw [updateRequirementCore_frame w.requirements rid patch h]
  | removeRequirement rid =>
    intro h
    simp only [applyOpPure] at h ⊢
    rw [removeRequirementCore_frame w.requirements rid h]
  | addEntity e =>
    intro h
    simp only [applyOpPure] at h ⊢
    rw [addEntityCore_frame w.entities e h]
  | updateEntity eid patch =>
    intro h
    simp only [applyOpPure] at h ⊢
    rw [updateEntityCore_frame w.entities eid patch h]
  | removeEntity eid =>
    intro h
    simp only [applyOpPure] at h ⊢
    rw [removeEntityCore_frame w.entities eid h]
  | addEndpoint e =>
    intro h
    simp only [applyOpPure] at h ⊢
    rw [addEndpointCore_frame w.endpoints e h]
  | updateEndpoint eid patch =>
    intro h
    simp only [applyOpPure] at h ⊢
    rw [updateEndpointCore_frame w.endpoints eid patch h]
  | removeEndpoint eid =>
    intro h
    simp only [applyOpPure] at h ⊢
    rw [removeEndpointCore_frame w.endpoints eid h]
  | updateFolderStructure fs => intro h; simp [applyOpPure] at h
  | unknownOperation ty => intro h; simp [applyOpPure]

theorem foldl_applyOpSt_working (operations : List ChangeOperation) (st : ApplyState) :
    (operations.foldl applyOpSt st).working =
      operations.foldl (fun w op => (applyOpPure op w).1) st.working := by
  induction operations generalizing st with
  | nil => rfl
  | cons op rest ih =>
    rw [List.foldl_cons, List.foldl_cons, ih]
    unfold applyOpSt
    rcases applyOpPure op st.working with ⟨w2, cs, is⟩
    rfl

theorem foldl_pure_eq_guarded (operations : List ChangeOperation) (w : Spec) :
    operations.foldl (fun w op => (applyOpPure op w).1) w =
      operations.foldl
        (fun w op => if (applyOpPure op w).2.1 = [] then (applyOpPure op w).1 else w)
        w := by
  induction operations generalizing w with
  | nil => rfl
  | cons op rest ih =>
    rw [List.foldl_cons, List.foldl_cons]
    by_cases h : (applyOpPure op w).2.1 = []
    · rw [if_pos h, ih]
    · rw [if_neg h, applyOpPure_conflict_frame op w h, ih]

/-- C1: the proposed spec is the fold over *all* operations in array
order, in which every operation that reports a conflict acts as the
identity on the working spec — a conflicting operation is skipped but
subsequent operations still run, and the result differs from the input
only by the effects of the non-conflicting operations. -/
theorem conflicting_ops_leave_no_trace (currentSpec : Spec) (changeRequest : ChangeRequest) :
    (applyChangeRequestToSpec currentSpec changeRequest).spec =
      changeRequest.operations.foldl
        (fun w op => if (applyOpPure op w).2.1 = [] then (applyOpPure op w).1 else w)
        currentSpec := by
  unfold applyChangeRequestToSpec applyChangeRequestToSpecSt
  simp only []
  rw [foldl_applyOpSt_working, foldl_pure_eq_guarded]
  rw [deepCopySpec_id]

theorem updateFirst_append_none {α : Type} (p : α → Bool) (f : α → α) (l1 l2 : List α)
    (h : ∀ e ∈ l1, p e = false) :
    updateFirst p f (l1 ++ l2) = l1 ++ updateFirst p f l2 := by
  induction l1 with
  | nil => rfl
  | cons a l ih =>
    simp only [List.cons_append, updateFirst, h a (by simp), Bool.false_eq_true, if_false,
      List.cons.injEq, true_and]
    exact ih (fun e he => h e (by simp [he]))

/-- C6: on a spec already containing an entity named `User` and otherwise
validating cleanly, an `addEntity` of another entity named `User` yields
exactly one conflict, of type `naming`, and the proposed entities list has
the same length as the current one. -/
theorem duplicate_entity_name_rejected (s : Spec) (ent : Entity) (summary : String)
    (hUser : ∃ e ∈ s.entities, e.name = "User")
    (hent : ent.name = "User")
    (hvalid : validateSpec s = []) :
    ((applyChangeRequestToSpec s ⟨summary, [.addEntity ent]⟩).conflicts.length = 1 ∧
      ∀ c ∈ (applyChangeRequestToSpec s ⟨summary, [.addEntity ent]⟩).conflicts,
        c.type = ConflictType.naming) ∧
    (applyChangeRequestToSpec s ⟨summary, [.addEntity ent]⟩).spec.entities.length =
      s.entities.length := by
  have hany : (s.entities.any fun item => item.name == ent.name) = true := by
    rw [List.any_eq_true]
    obtain ⟨e, he, hn⟩ := hUser
    exact ⟨e, he, by simp [hn, hent]⟩
  have hwork : ({ s with entities := s.entities } : Spec) = s := rfl
  simp only [applyChangeRequestToSpec, applyChangeRequestToSpecSt, List.foldl_cons,
    List.foldl_nil, applyOpSt, applyOpPure, addEntityCore, deepCopySpec_id, hany, if_true]
  simp only [hwork, hvalid, List.nil_append, List.append_nil]
  refine ⟨⟨by simp, ?_⟩, by simp⟩
  intro c hc
  simp only [List.mem_singleton] at hc
  subst hc
  rfl

/-- C6 witness. -/
theorem duplicate_entity_name_rejected_witness :
    ((applyChangeRequestToSpec (embedSpec [] [⟨"u1", "User", [], []⟩] [] (.mk .nil))
        ⟨"s", [.addEntity ⟨"u2", "User", [], []⟩]⟩).conflicts.length = 1 ∧
      ∀ c ∈ (applyChangeRequestToSpec (embedSpec [] [⟨"u1", "User", [], []⟩] [] (.mk .nil))
        ⟨"s", [.addEntity ⟨"u2", "User", [], []⟩]⟩).conflicts,
        c.type = ConflictType.naming) ∧
    (applyChangeRequestToSpec (embedSpec [] [⟨"u1", "User", [], []⟩] [] (.mk .nil))
        ⟨"s", [.addEntity ⟨"u2", "User", [], []⟩]⟩).spec.entities.length =
      (embedSpec [] [⟨"u1", "User", [], []⟩] [] (.mk .nil)).entities.length :=
  duplicate_entity_name_rejected (embedSpec [] [⟨"u1", "User", [], []⟩] [] (.mk .nil))
    ⟨"u2", "User", [], []⟩ "s" ⟨⟨"u1", "User", [], []⟩, by simp [embedSpec], rfl⟩ rfl
    (by decide)

/-- C7: operations run in array order and see the effects of earlier
operations in the same request: on a spec with no entity of the new
entity's id or name, `addEntity` followed by `updateEntity` on that id
(with a non-colliding patch) applies both operations — all conflicts of
the apply come from the post-hoc validator only, and the final entities
list is the original one extended with the patched new entity. -/
theorem ops_in_order_effects_visible (s : Spec) (ent : Entity) (patch : EntityPatch)
    (summary : String)
    (hid : ∀ e ∈ s.entities, e.id ≠ ent.id)
    (hname : ∀ e ∈ s.entities, e.name ≠ ent.name)
    (hpatch : ∀ n, patch.name = some n → n ≠ "" → ∀ e ∈ s.entities, e.name ≠ n) :
    (applyChangeRequestToSpec s
        ⟨summary, [.addEntity ent, .updateEntity ent.id patch]⟩).spec.entities =
      s.entities ++ [applyEntityPatch ent patch] ∧
    (applyChangeRequestToSpec s
        ⟨summary, [.addEntity ent, .updateEntity ent.id patch]⟩).conflicts =
      validateSpec (applyChangeRequestToSpec s
        ⟨summary, [.addEntity ent, .updateEntity ent.id patch]⟩).spec := by
  have hanyName : (s.entities.any fun item => item.name == ent.name) = false := by
    rw [List.any_eq_false]
    intro e he
    simp [hname e he]
  have hfind : ((s.entities ++ [ent]).find? fun item => item.id == ent.id) = some ent := by
    rw [List.find?_append]
    have h1 : (s.entities.find? fun item => item.id == ent.id) = none := by
      rw [List.find?_eq_none]
      intro e he
      simp [hid e he]
    rw [h1]
    simp
  have hupdF : updateFirst (fun item => item.id == ent.id)
      (fun item => applyEntityPatch item patch) (s.entities ++ [ent]) =
      s.entities ++ [applyEntityPatch ent patch] := by
    rw [updateFirst_append_none _ _ _ _ (fun e he => by simp [hid e he])]
    simp [updateFirst]
  have hdup : ∀ n, patch.name = some n → (!(n == "") &&
      ((s.entities ++ [ent]).any fun other =>
        !(other.id == ent.id) && other.name == n)) = false := by
    intro n hn
    by_cases hne : n = ""
    · simp [hne]
    · rw [List.any_append]
      have h1 : (s.entities.any fun other => !(other.id == ent.id) && other.name == n) = false := by
        rw [List.any_eq_false]
        intro e he
        simp [hpatch n hn hne e he]
      have h2 : ([ent].any fun other => !(other.id == ent.id) && other.name == n) = false := by
        simp
      rw [h1, h2]
      simp
  have hcore : updateEntityCore (s.entities ++ [ent]) ent.id patch =
      (s.entities ++ [applyEntityPatch ent patch], [],
       [⟨"Entity " ++ (applyEntityPatch ent patch).name ++ " updated",
         some [(applyEntityPatch ent patch).name], none,
         some ["prisma/schema.prisma",
           "src/entities/" ++ (applyEntityPatch ent patch).name ++ ".ts"]⟩]) := by
    rw [updateEntityCore, hfind]
    cases hn : patch.name with
    | none => simp only [updateEntityMerge, hupdF]
    | some n =>
      have := hdup n hn
      simp only [this, Bool.false_eq_true, if_false, updateEntityMerge, hupdF]
  simp only [applyChangeRequestToSpec, applyChangeRequestToSpecSt, List.foldl_cons,
    List.foldl_nil, applyOpSt, applyOpPure, addEntityCore, deepCopySpec_id, hanyName,
    Bool.false_eq_true, if_false, hcore]
  simp

/-- C7 witness. -/
theorem ops_in_order_effects_visible_witness :
    (applyChangeRequestToSpec (embedSpec [] [⟨"a", "A", [], []⟩] [] (.mk .nil))
        ⟨"s", [.addEntity ⟨"x", "N", [], []⟩,
               .updateEntity (Entity.id ⟨"x", "N", [], []⟩) ⟨none, some "M", none, none⟩]⟩).spec.entities =
      (embedSpec [] [⟨"a", "A", [], []⟩] [] (.mk .nil)).entities ++
        [applyEntityPatch ⟨"x", "N", [], []⟩ ⟨none, some "M", none, none⟩] ∧
    (applyChangeRequestToSpec (embedSpec [] [⟨"a", "A", [], []⟩] [] (.mk .nil))
        ⟨"s", [.addEntity ⟨"x", "N", [], []⟩,
               .updateEntity (Entity.id ⟨"x", "N", [], []⟩) ⟨none, some "M", none, none⟩]⟩).conflicts =
      validateSpec (applyChangeRequestToSpec (embedSpec [] [⟨"a", "A", [], []⟩] [] (.mk .nil))
        ⟨"s", [.addEntity ⟨"x", "N", [], []⟩,
               .updateEntity (Entity.id ⟨"x", "N", [], []⟩) ⟨none, some "M", none, none⟩]⟩).spec :=
  ops_in_order_effects_visible (embedSpec [] [⟨"a", "A", [], []⟩] [] (.mk .nil))
    ⟨"x", "N", [], []⟩ ⟨none, some "M", none, none⟩ "s"
    (by intro e he; simp [embedSpec] at he; simp [he])
    (by intro e he; simp [embedSpec] at he; simp [he])
    (by intro n hn hne e he; simp [embedSpec] at he; simp at hn; simp [he, ← hn])

/-- View a strict spec as loose input with all three lists present. -/
def looseOf (w : Spec) : LooseSpec :=
  ⟨some w.requirements, some w.entities, some w.endpoints, w.folder_structure⟩

/-- C4 counterexample: a spec whose endpoints list is missing makes the
validator throw a TypeError instead of returning normally (the source
iterates `spec.endpoints` unguarded), refuting the claim that a missing
list is treated as empty. -/
theorem validator_missing_list_throws :
    validateSpecLoose ⟨some [], some [], none, .mk .nil⟩ =
      Except.error "TypeError: spec.endpoints is not iterable" := rfl

/-- C4 amended: the validator tolerates *empty* entity and endpoint lists,
returning no conflicts; a *missing* (undefined) list, however, raises a
TypeError instead of being treated as empty. -/
theorem validator_tolerates_empty_lists (s : Spec)
    (hent : s.entities = []) (hep : s.endpoints = []) :
    validateSpec s = [] := by
  unfold validateSpec validateSpecCore
  rw [hent, hep]
  rfl

/-- C4 witness. -/
theorem validator_tolerates_empty_lists_witness :
    validateSpec (embedSpec [⟨"r1", "d"⟩] [] [] (.mk .nil)) = [] :=
  validator_tolerates_empty_lists (embedSpec [⟨"r1", "d"⟩] [] [] (.mk .nil)) rfl rfl

/-- C3 counterexample: a structurally malformed spec (entities list
absent) makes the apply function throw instead of returning a single
`validation` conflict: the deep copy succeeds but the unguarded walk of
`spec.entities` in the post-hoc validator raises, so the API is not total
over all inputs the type system allows. -/
theorem apply_missing_entities_throws :
    applyLoose ⟨some [], none, some [], .mk .nil⟩ ⟨"", []⟩ =
      Except.error "TypeError: spec.entities is not iterable" := rfl

theorem applyOpLoose_ok (operation : ChangeOperation) (w : Spec) :
    applyOpLoose operation (looseOf w) =
      .ok (looseOf (applyOpPure operation w).1,
           (applyOpPure operation w).2.1, (applyOpPure operation w).2.2) := by
  cases operation <;> rfl

theorem foldlM_loose_ok (operations : List ChangeOperation) (cur w : Spec)
    (cs : List ChangeConflict) (is : List ChangeImpact) :
    (operations.foldlM
        (fun acc operation => do
          let (w2, cs2, is2) ← applyOpLoose operation acc.1
          pure (w2, acc.2.1 ++ cs2, acc.2.2 ++ is2))
        ((looseOf w, cs, is) :
          LooseSpec × List ChangeConflict × List ChangeImpact)) =
      .ok (looseOf (operations.foldl applyOpSt ⟨cur, w, cs, is⟩).working,
           (operations.foldl applyOpSt ⟨cur, w, cs, is⟩).conflicts,
           (operations.foldl applyOpSt ⟨cur, w, cs, is⟩).impacts) := by
  induction operations generalizing w cs is with
  | nil => rfl
  | cons op rest ih =>
    rw [List.foldlM_cons, List.foldl_cons]
    have hstep : applyOpSt ⟨cur, w, cs, is⟩ op =
        ⟨cur, (applyOpPure op w).1, cs ++ (applyOpPure op w).2.1,
         is ++ (applyOpPure op w).2.2⟩ := by
      unfold applyOpSt
      rcases applyOpPure op w with ⟨w2, cs2, is2⟩
      rfl
    rw [applyOpLoose_ok, hstep]
    exact ih (applyOpPure op w).1 (cs ++ (applyOpPure op w).2.1) (is ++ (applyOpPure op w).2.2)

/-- C3 amended: over well-shaped inputs — a spec whose three walked lists
are present (with arbitrary contents) and any change request, including
operations of unknown type — the apply function is total: it returns a
result (never raises) that coincides with the strict model, and an
operation of unknown type is reported as a single `validation` conflict
with the working spec untouched. Malformed specs whose lists are absent
are *not* reported as a `validation` conflict: they raise (see the
counterexample). -/
theorem apply_total_on_wellshaped (w : Spec) (changeRequest : ChangeRequest) :
    applyLoose (looseOf w) changeRequest =
      .ok (looseOf (applyChangeRequestToSpec w changeRequest).spec,
           (applyChangeRequestToSpec w changeRequest).conflicts,
           (applyChangeRequestToSpec w changeRequest).impacts) ∧
    ∀ ty s, applyOpPure (.unknownOperation ty) s =
      (s, [⟨.validation, "Unsupported operation " ++ ty, none⟩], []) := by
  constructor
  · unfold applyLoose applyChangeRequestToSpec applyChangeRequestToSpecSt
    rw [deepCopySpec_id]
    simp only [foldlM_loose_ok changeRequest.operations w w [] []]
    rfl
  · intro ty s; rfl

-- Set-fold lemmas: the JS `Set` built by repeated `add` is duplicate-free
-- and holds exactly the union of the inserted elements, so `.size` is the
-- cardinality of that union.

theorem setAdd_nodup (l : List String) (x : String) (h : l.Nodup) : (setAdd l x).Nodup := by
  unfold setAdd
  split
  · exact h
  · next hc =>
    simp only [List.nodup_append, List.nodup_cons, List.not_mem_nil, not_false_iff,
      List.nodup_nil, and_true, true_and]
    have hx : x ∉ l := by simpa using hc
    exact ⟨h, by simpa using hx⟩

theorem setAdd_toFinset (l : List String) (x : String) :
    (setAdd l x).toFinset = insert x l.toFinset := by
  unfold setAdd
  split
  · next hc =>
    have hx : x ∈ l := by simpa using hc
    rw [Finset.insert_eq_self.mpr (List.mem_toFinset.mpr hx)]
  · rw [List.toFinset_append, Finset.insert_eq, Finset.union_comm]
    simp

theorem setAddAll_nodup (xs : List String) (l : List String) (h : l.Nodup) :
    (setAddAll l xs).Nodup := by
  induction xs generalizing l with
  | nil => exact h
  | cons y ys ih => exact ih (setAdd l y) (setAdd_nodup l y h)

theorem setAddAll_toFinset (xs : List String) (l : List String) :
    (setAddAll l xs).toFinset = l.toFinset ∪ xs.toFinset := by
  induction xs generalizing l with
  | nil => simp [setAddAll]
  | cons y ys ih =>
    show (setAddAll (setAdd l y) ys).toFinset = _
    rw [ih, setAdd_toFinset]
    simp [Finset.insert_union, Finset.union_insert]

-- The summary fold: the three seen-sets stay duplicate-free and track the
-- union of all affected names; the classification lists only grow.

theorem summarize_sets_nodup (impacts : List ChangeImpact) (acc : SummaryState)
    (h1 : acc.entities.Nodup) (h2 : acc.endpoints.Nodup) (h3 : acc.files.Nodup) :
    (impacts.foldl summarizeImpact acc).entities.Nodup ∧
    (impacts.foldl summarizeImpact acc).endpoints.Nodup ∧
    (impacts.foldl summarizeImpact acc).files.Nodup := by
  induction impacts generalizing acc with
  | nil => exact ⟨h1, h2, h3⟩
  | cons i rest ih =>
    rw [List.foldl_cons]
    have hstep : (summarizeImpact acc i).entities = setAddAll acc.entities (i.affectedEntities.getD []) ∧
        (summarizeImpact acc i).endpoints = setAddAll acc.endpoints (i.affectedEndpoints.getD []) ∧
        (summarizeImpact acc i).files = setAddAll acc.files (i.affectedFiles.getD []) := by
      unfold summarizeImpact
      split <;> split <;> exact ⟨rfl, rfl, rfl⟩
    exact ih (summarizeImpact acc i)
      (hstep.1 ▸ setAddAll_nodup _ _ h1)
      (hstep.2.1 ▸ setAddAll_nodup _ _ h2)
      (hstep.2.2 ▸ setAddAll_nodup _ _ h3)

theorem summarize_sets_toFinset (impacts : List ChangeImpact) (acc : SummaryState) :
    (impacts.foldl summarizeImpact acc).entities.toFinset =
      acc.entities.toFinset ∪ (impacts.flatMap fun i => i.affectedEntities.getD []).toFinset ∧
    (impacts.foldl summarizeImpact acc).endpoints.toFinset =
      acc.endpoints.toFinset ∪ (impacts.flatMap fun i => i.affectedEndpoints.getD []).toFinset ∧
    (impacts.foldl summarizeImpact acc).files.toFinset =
      acc.files.toFinset ∪ (impacts.flatMap fun i => i.affectedFiles.getD []).toFinset := by
  induction impacts generalizing acc with
  | nil => simp
  | cons i rest ih =>
    rw [List.foldl_cons]
    have hstep : (summarizeImpact acc i).entities = setAddAll acc.entities (i.affectedEntities.getD []) ∧
        (summarizeImpact acc i).endpoints = setAddAll acc.endpoints (i.affectedEndpoints.getD []) ∧
        (summarizeImpact acc i).files = setAddAll acc.files (i.affectedFiles.getD []) := by
      unfold summarizeImpact
      split <;> split <;> exact ⟨rfl, rfl, rfl⟩
    obtain ⟨e1, e2, e3⟩ := ih (summarizeImpact acc i)
    refine ⟨?_, ?_, ?_⟩
    · rw [e1, hstep.1, setAddAll_toFinset, List.flatMap_cons, List.toFinset_append,
        Finset.union_assoc]
    · rw [e2, hstep.2.1, setAddAll_toFinset, List.flatMap_cons, List.toFinset_append,
        Finset.union_assoc]
    · rw [e3, hstep.2.2, setAddAll_toFinset, List.flatMap_cons, List.toFinset_append,
        Finset.union_assoc]

theorem summarizeImpact_mono (acc : SummaryState) (i : ChangeImpact) (n : String) :
    (n ∈ acc.newEntities → n ∈ (summarizeImpact acc i).newEntities) ∧
    (n ∈ acc.newEndpoints → n ∈ (summarizeImpact acc i).newEndpoints) ∧
    (n ∈ acc.removedEntities → n ∈ (summarizeImpact acc i).removedEntities) ∧
    (n ∈ acc.removedEndpoints → n ∈ (summarizeImpact acc i).removedEndpoints) := by
  unfold summarizeImpact
  split <;> split <;> simp_all [List.mem_append]

theorem foldl_summarize_mono (impacts : List ChangeImpact) (acc : SummaryState) (n : String) :
    (n ∈ acc.newEntities → n ∈ (impacts.foldl summarizeImpact acc).newEntities) ∧
    (n ∈ acc.newEndpoints → n ∈ (impacts.foldl summarizeImpact acc).newEndpoints) ∧
    (n ∈ acc.removedEntities → n ∈ (impacts.foldl summarizeImpact acc).removedEntities) ∧
    (n ∈ acc.removedEndpoints → n ∈ (impacts.foldl summarizeImpact acc).removedEndpoints) := by
  induction impacts generalizing acc with
  | nil => exact ⟨id, id, id, id⟩
  | cons i rest ih =>
    rw [List.foldl_cons]
    obtain ⟨m1, m2, m3, m4⟩ := summarizeImpact_mono acc i n
    obtain ⟨f1, f2, f3, f4⟩ := ih (summarizeImpact acc i)
    exact ⟨fun h => f1 (m1 h), fun h => f2 (m2 h), fun h => f3 (m3 h), fun h => f4 (m4 h)⟩

theorem summarizeImpact_classifies (acc : SummaryState) (i : ChangeImpact) (n : String) :
    (strIncludes i.description "added" = true →
      (n ∈ i.affectedEntities.getD [] → n ∈ (summarizeImpact acc i).newEntities) ∧
      (n ∈ i.affectedEndpoints.getD [] → n ∈ (summarizeImpact acc i).newEndpoints)) ∧
    (strIncludes i.description "removed" = true →
      (n ∈ i.affectedEntities.getD [] → n ∈ (summarizeImpact acc i).removedEntities) ∧
      (n ∈ i.affectedEndpoints.getD [] → n ∈ (summarizeImpact acc i).removedEndpoints)) := by
  unfold summarizeImpact
  split <;> split <;> simp_all [List.mem_append]

/-- C9: in the impact summary, every affected name of an impact whose
description contains "added" lands in `newEntities`/`newEndpoints`, every
one whose description contains "removed" lands in
`removedEntities`/`removedEndpoints`, and the three `modified*` counts are
the cardinalities of the union sets of affected names across all impacts,
not the raw impact count. -/
theorem impact_summary_classification (preview : ChangePreview) :
    (∀ i ∈ preview.impacts, strIncludes i.description "added" = true →
      (∀ n ∈ i.affectedEntities.getD [], n ∈ (generateImpactSummary preview).newEntities) ∧
      (∀ n ∈ i.affectedEndpoints.getD [], n ∈ (generateImpactSummary preview).newEndpoints)) ∧
    (∀ i ∈ preview.impacts, strIncludes i.description "removed" = true →
      (∀ n ∈ i.affectedEntities.getD [], n ∈ (generateImpactSummary preview).removedEntities) ∧
      (∀ n ∈ i.affectedEndpoints.getD [], n ∈ (generateImpactSummary preview).removedEndpoints)) ∧
    (generateImpactSummary preview).modifiedEntities =
      (preview.impacts.flatMap fun i => i.affectedEntities.getD []).toFinset.card ∧
    (generateImpactSummary preview).modifiedEndpoints =
      (preview.impacts.flatMap fun i => i.affectedEndpoints.getD []).toFinset.card ∧
    (generateImpactSummary preview).modifiedFiles =
      (preview.impacts.flatMap fun i => i.affectedFiles.getD []).toFinset.card := by
  have hmem : ∀ i ∈ preview.impacts, ∀ n : String,
      (strIncludes i.description "added" = true →
        (n ∈ i.affectedEntities.getD [] →
          n ∈ (preview.impacts.foldl summarizeImpact ⟨[], [], [], [], [], [], []⟩).newEntities) ∧
        (n ∈ i.affectedEndpoints.getD [] →
          n ∈ (preview.impacts.foldl summarizeImpact ⟨[], [], [], [], [], [], []⟩).newEndpoints)) ∧
      (strIncludes i.description "removed" = true →
        (n ∈ i.affectedEntities.getD [] →
          n ∈ (preview.impacts.foldl summarizeImpact ⟨[], [], [], [], [], [], []⟩).removedEntities) ∧
        (n ∈ i.affectedEndpoints.getD [] →
          n ∈ (preview.impacts.foldl summarizeImpact ⟨[], [], [], [], [], [], []⟩).removedEndpoints)) := by
    have hgen : ∀ (impacts : List ChangeImpact) (acc : SummaryState),
        ∀ i ∈ impacts, ∀ n : String,
        (strIncludes i.description "added" = true →
          (n ∈ i.affectedEntities.getD [] → n ∈ (impacts.foldl summarizeImpact acc).newEntities) ∧
          (n ∈ i.affectedEndpoints.getD [] → n ∈ (impacts.foldl summarizeImpact acc).newEndpoints)) ∧
        (strIncludes i.description "removed" = true →
          (n ∈ i.affectedEntities.getD [] → n ∈ (impacts.foldl summarizeImpact acc).removedEntities) ∧
          (n ∈ i.affectedEndpoints.getD [] → n ∈ (impacts.foldl summarizeImpact acc).removedEndpoints)) := by
      intro impacts
      induction impacts with
      | nil => intro acc i hi; simp at hi
      | cons j rest ih =>
        intro acc i hi n
        rw [List.foldl_cons]
        rcases List.mem_cons.mp hi with hij | hir
        · subst hij
          obtain ⟨ca, cr⟩ := summarizeImpact_classifies acc i n
          obtain ⟨f1, f2, f3, f4⟩ := foldl_summarize_mono rest (summarizeImpact acc i) n
          exact ⟨fun ha => ⟨fun hn => f1 ((ca ha).1 hn), fun hn => f2 ((ca ha).2 hn)⟩,
                 fun hr => ⟨fun hn => f3 ((cr hr).1 hn), fun hn => f4 ((cr hr).2 hn)⟩⟩
        · exact ih (summarizeImpact acc j) i hir n
    exact hgen preview.impacts ⟨[], [], [], [], [], [], []⟩
  have hnodup := summarize_sets_nodup preview.impacts ⟨[], [], [], [], [], [], []⟩
    List.nodup_nil List.nodup_nil List.nodup_nil
  have hsets := summarize_sets_toFinset preview.impacts ⟨[], [], [], [], [], [], []⟩
  refine ⟨?_, ?_, ?_, ?_, ?_⟩
  · intro i hi ha
    exact ⟨fun n hn => ((hmem i hi n).1 ha).1 hn, fun n hn => ((hmem i hi n).1 ha).2 hn⟩
  · intro i hi hr
    exact ⟨fun n hn => ((hmem i hi n).2 hr).1 hn, fun n hn => ((hmem i hi n).2 hr).2 hn⟩
  · show (preview.impacts.foldl summarizeImpact ⟨[], [], [], [], [], [], []⟩).entities.length = _
    rw [← List.toFinset_card_of_nodup hnodup.1, hsets.1]
    simp
  · show (preview.impacts.foldl summarizeImpact ⟨[], [], [], [], [], [], []⟩).endpoints.length = _
    rw [← List.toFinset_card_of_nodup hnodup.2.1, hsets.2.1]
    simp
  · show (preview.impacts.foldl summarizeImpact ⟨[], [], [], [], [], [], []⟩).files.length = _
    rw [← List.toFinset_card_of_nodup hnodup.2.2, hsets.2.2]
    simp

/-- C9 witness at a concrete preview. -/
theorem impact_summary_classification_witness :
    (∀ i ∈ (ChangePreview.mk (embedSpec [] [] [] (.mk .nil)) (embedSpec [] [] [] (.mk .nil)) ()
        [] [⟨"Entity Foo added", some ["Foo"], none, some ["a.ts"]⟩,
            ⟨"Entity Bar removed", some ["Bar"], none, some ["a.ts"]⟩]).impacts,
      strIncludes i.description "added" = true →
      (∀ n ∈ i.affectedEntities.getD [],
        n ∈ (generateImpactSummary (ChangePreview.mk (embedSpec [] [] [] (.mk .nil))
          (embedSpec [] [] [] (.mk .nil)) ()
          [] [⟨"Entity Foo added", some ["Foo"], none, some ["a.ts"]⟩,
              ⟨"Entity Bar removed", some ["Bar"], none, some ["a.ts"]⟩])).newEntities) ∧
      (∀ n ∈ i.affectedEndpoints.getD [],
        n ∈ (generateImpactSummary (ChangePreview.mk (embedSpec [] [] [] (.mk .nil))
          (embedSpec [] [] [] (.mk .nil)) ()
          [] [⟨"Entity Foo added", some ["Foo"], none, some ["a.ts"]⟩,
              ⟨"Entity Bar removed", some ["Bar"], none, some ["a.ts"]⟩])).newEndpoints)) ∧
    (∀ i ∈ (ChangePreview.mk (embedSpec [] [] [] (.mk .nil)) (embedSpec [] [] [] (.mk .nil)) ()
        [] [⟨"Entity Foo added", some ["Foo"], none, some ["a.ts"]⟩,
            ⟨"Entity Bar removed", some ["Bar"], none, some ["a.ts"]⟩]).impacts,
      strIncludes i.description "removed" = true →
      (∀ n ∈ i.affectedEntities.getD [],
        n ∈ (generateImpactSummary (ChangePreview.mk (embedSpec [] [] [] (.mk .nil))
          (embedSpec [] [] [] (.mk .nil)) ()
          [] [⟨"Entity Foo added", some ["Foo"], none, some ["a.ts"]⟩,
              ⟨"Entity Bar removed", some ["Bar"], none, some ["a.ts"]⟩])).removedEntities) ∧
      (∀ n ∈ i.affectedEndpoints.getD [],
        n ∈ (generateImpactSummary (ChangePreview.mk (embedSpec [] [] [] (.mk .nil))
          (embedSpec [] [] [] (.mk .nil)) ()
          [] [⟨"Entity Foo added", some ["Foo"], none, some ["a.ts"]⟩,
              ⟨"Entity Bar removed", some ["Bar"], none, some ["a.ts"]⟩])).removedEndpoints)) ∧
    (generateImpactSummary (ChangePreview.mk (embedSpec [] [] [] (.mk .nil))
        (embedSpec [] [] [] (.mk .nil)) ()
        [] [⟨"Entity Foo added", some ["Foo"], none, some ["a.ts"]⟩,
            ⟨"Entity Bar removed", some ["Bar"], none, some ["a.ts"]⟩])).modifiedEntities =
      ((ChangePreview.mk (embedSpec [] [] [] (.mk .nil)) (embedSpec [] [] [] (.mk .nil)) ()
        [] [⟨"Entity Foo added", some ["Foo"], none, some ["a.ts"]⟩,
            ⟨"Entity Bar removed", some ["Bar"], none, some ["a.ts"]⟩]).impacts.flatMap
        fun i => i.affectedEntities.getD []).toFinset.card ∧
    (generateImpactSummary (ChangePreview.mk (embedSpec [] [] [] (.mk .nil))
        (embedSpec [] [] [] (.mk .nil)) ()
        [] [⟨"Entity Foo added", some ["Foo"], none, some ["a.ts"]⟩,
            ⟨"Entity Bar removed", some ["Bar"], none, some ["a.ts"]⟩])).modifiedEndpoints =
      ((ChangePreview.mk (embedSpec [] [] [] (.mk .nil)) (embedSpec [] [] [] (.mk .nil)) ()
        [] [⟨"Entity Foo added", some ["Foo"], none, some ["a.ts"]⟩,
            ⟨"Entity Bar removed", some ["Bar"], none, some ["a.ts"]⟩]).impacts.flatMap
        fun i => i.affectedEndpoints.getD []).toFinset.card ∧
    (generateImpactSummary (ChangePreview.mk (embedSpec [] [] [] (.mk .nil))
        (embedSpec [] [] [] (.mk .nil)) ()
        [] [⟨"Entity Foo added", some ["Foo"], none, some ["a.ts"]⟩,
            ⟨"Entity Bar removed", some ["Bar"], none, some ["a.ts"]⟩])).modifiedFiles =
      ((ChangePreview.mk (embedSpec [] [] [] (.mk .nil)) (embedSpec [] [] [] (.mk .nil)) ()
        [] [⟨"Entity Foo added", some ["Foo"], none, some ["a.ts"]⟩,
            ⟨"Entity Bar removed", some ["Bar"], none, some ["a.ts"]⟩]).impacts.flatMap
        fun i => i.affectedFiles.getD []).toFinset.card :=
  impact_summary_classification
    (ChangePreview.mk (embedSpec [] [] [] (.mk .nil)) (embedSpec [] [] [] (.mk .nil)) ()
      [] [⟨"Entity Foo added", some ["Foo"], none, some ["a.ts"]⟩,
          ⟨"Entity Bar removed", some ["Bar"], none, some ["a.ts"]⟩])

/-- C8 counterexample: patching an endpoint's path to the empty string.
The resulting (method, path) pair `("GET", "")` collides with another
endpoint, yet the source's guard `if (patch.path || patch.method)` is
falsy on the empty string, so the collision check is skipped, no `naming`
conflict is reported by the operation, and the target's fields are merged
anyway — refuting "a naming conflict is reported and no field of the
target endpoint changes". -/
theorem updateEndpoint_empty_path_counterexample :
    (embedSpec [] [] [⟨"1", "GET", "/a", .null⟩, ⟨"2", "GET", "", .null⟩]
        (.mk .nil)).endpoints.any (fun other =>
          !(other.id == "1") &&
          other.path == (EndpointPatch.mk none none (some "") none).path.getD "/a" &&
          other.method == (EndpointPatch.mk none none (some "") none).method.getD "GET") = true ∧
    applyOpPure (.updateEndpoint "1" ⟨none, none, some "", none⟩)
        (embedSpec [] [] [⟨"1", "GET", "/a", .null⟩, ⟨"2", "GET", "", .null⟩] (.mk .nil)) =
      (embedSpec [] [] [⟨"1", "GET", "", .null⟩, ⟨"2", "GET", "", .null⟩] (.mk .nil), [],
       [⟨"Endpoint GET  updated", none, some ["GET "],
         some ["openapi.json", "src/routes/root.ts"]⟩]) := by
  exact ⟨by decide, by decide⟩

/-- C8 amended: *when the patch carries a non-empty (truthy) path or
method*, the `updateEndpoint` collision check is keyed on the resulting
(method, path) pair — the patched value where present (`??`, so a present
empty string does count there), otherwise the endpoint's current value —
against all endpoints other than the target: on a collision a `naming`
conflict is reported and the target is left untouched, otherwise the
patch is shallow-merged. (When both patched path and method are absent or
empty strings the check is skipped entirely; see the counterexample.) -/
theorem updateEndpoint_resulting_pair_check (endpoints : List Endpoint) (endpointId : String)
    (patch : EndpointPatch) (endpoint : Endpoint)
    (hfind : (endpoints.find? fun item => item.id == endpointId) = some endpoint)
    (hguard : (jsTruthy patch.path || jsTruthy patch.method) = true) :
    ((endpoints.any (fun other => !(other.id == endpointId) &&
        other.path == patch.path.getD endpoint.path &&
        other.method == patch.method.getD endpoint.method)) = true →
      (updateEndpointCore endpoints endpointId patch).1 = endpoints ∧
      (updateEndpointCore endpoints endpointId patch).2.1 =
        [⟨.naming, "Endpoint " ++ patch.method.getD endpoint.method ++ " " ++
            patch.path.getD endpoint.path ++ " already exists",
          some (.cons "endpointId" (.string endpointId)
            (.cons "path" (.string (patch.path.getD endpoint.path))
              (.cons "method" (.string (patch.method.getD endpoint.method)) .nil)))⟩]) ∧
    ((endpoints.any (fun other => !(other.id == endpointId) &&
        other.path == patch.path.getD endpoint.path &&
        other.method == patch.method.getD endpoint.method)) = false →
      (updateEndpointCore endpoints endpointId patch).1 =
        updateFirst (fun item => item.id == endpointId)
          (fun item => applyEndpointPatch item patch) endpoints ∧
      (updateEndpointCore endpoints endpointId patch).2.1 = []) := by
  constructor
  · intro hdup
    simp only [updateEndpointCore, hfind, hguard, if_true, hdup]
    constructor <;> trivial
  · intro hdup
    simp only [updateEndpointCore, hfind, hguard, if_true, hdup, Bool.false_eq_true, if_false,
      updateEndpointMerge]
    constructor <;> trivial

/-- C8 witness (collision case at a concrete input). -/
theorem updateEndpoint_resulting_pair_check_witness :
    (([⟨"1", "GET", "/a", JValue.null⟩, ⟨"2", "PUT", "/b", JValue.null⟩] :
        List Endpoint).any (fun other => !(other.id == "1") &&
        other.path == (EndpointPatch.mk none (some "PUT") (some "/b") none).path.getD "/a" &&
        other.method == (EndpointPatch.mk none (some "PUT") (some "/b") none).method.getD "GET") = true →
      (updateEndpointCore [⟨"1", "GET", "/a", JValue.null⟩, ⟨"2", "PUT", "/b", JValue.null⟩]
          "1" ⟨none, some "PUT", some "/b", none⟩).1 =
        [⟨"1", "GET", "/a", JValue.null⟩, ⟨"2", "PUT", "/b", JValue.null⟩] ∧
      (updateEndpointCore [⟨"1", "GET", "/a", JValue.null⟩, ⟨"2", "PUT", "/b", JValue.null⟩]
          "1" ⟨none, some "PUT", some "/b", none⟩).2.1 =
        [⟨.naming, "Endpoint " ++ (EndpointPatch.mk none (some "PUT") (some "/b") none).method.getD "GET"
            ++ " " ++ (EndpointPatch.mk none (some "PUT") (some "/b") none).path.getD "/a"
            ++ " already exists",
          some (.cons "endpointId" (.string "1")
            (.cons "path" (.string ((EndpointPatch.mk none (some "PUT") (some "/b") none).path.getD "/a"))
              (.cons "method" (.string ((EndpointPatch.mk none (some "PUT") (some "/b") none).method.getD "GET")) .nil)))⟩]) ∧
    (([⟨"1", "GET", "/a", JValue.null⟩, ⟨"2", "PUT", "/b", JValue.null⟩] :
        List Endpoint).any (fun other => !(other.id == "1") &&
        other.path == (EndpointPatch.mk none (some "PUT") (some "/b") none).path.getD "/a" &&
        other.method == (EndpointPatch.mk none (some "PUT") (some "/b") none).method.getD "GET") = false →
      (updateEndpointCore [⟨"1", "GET", "/a", JValue.null⟩, ⟨"2", "PUT", "/b", JValue.null⟩]
          "1" ⟨none, some "PUT", some "/b", none⟩).1 =
        updateFirst (fun item => item.id == "1")
          (fun item => applyEndpointPatch item ⟨none, some "PUT", some "/b", none⟩)
          [⟨"1", "GET", "/a", JValue.null⟩, ⟨"2", "PUT", "/b", JValue.null⟩] ∧
      (updateEndpointCore [⟨"1", "GET", "/a", JValue.null⟩, ⟨"2", "PUT", "/b", JValue.null⟩]
          "1" ⟨none, some "PUT", some "/b", none⟩).2.1 = []) :=
  updateEndpoint_resulting_pair_check
    [⟨"1", "GET", "/a", JValue.null⟩, ⟨"2", "PUT", "/b", JValue.null⟩] "1"
    ⟨none, some "PUT", some "/b", none⟩ ⟨"1", "GET", "/a", JValue.null⟩ (by decide) (by decide)

theorem fieldConflictsOf_types (entity : Entity) :
    ∀ cf ∈ fieldConflictsOf entity, cf.type = ConflictType.missingField := by
  intro cf hcf
  unfold fieldConflictsOf at hcf
  obtain ⟨f, _, rfl⟩ := List.mem_map.mp hcf
  rfl

theorem validateEntitiesPass_types (es : List Entity) :
    ∀ seen, ∀ cf ∈ validateEntitiesPass es seen,
      cf.type = ConflictType.naming ∨ cf.type = ConflictType.missingField := by
  induction es with
  | nil => intro seen cf hcf; simp [validateEntitiesPass] at hcf
  | cons e rest ih =>
    intro seen cf hcf
    unfold validateEntitiesPass at hcf
    split at hcf
    · rcases List.mem_append.mp hcf with h | h
      · rcases List.mem_cons.mp h with rfl | h
        · exact Or.inl rfl
        · exact Or.inr (fieldConflictsOf_types e cf h)
      · exact ih seen cf h
    · rcases List.mem_append.mp hcf with h | h
      · exact Or.inr (fieldConflictsOf_types e cf h)
      · exact ih (seen ++ [e.name]) cf h

theorem validateEndpointsPass_types (eps : List Endpoint) :
    ∀ seen, ∀ cf ∈ validateEndpointsPass eps seen, cf.type = ConflictType.naming := by
  induction eps with
  | nil => intro seen cf hcf; simp [validateEndpointsPass] at hcf
  | cons e rest ih =>
    intro seen cf hcf
    unfold validateEndpointsPass at hcf
    split at hcf
    · rcases List.mem_cons.mp hcf with rfl | h
      · rfl
      · exact ih seen cf h
    · exact ih _ cf hcf

/-- C5: three entities A→B→C→A, each relation targeting the next entity's
id or name (all six ids/names pairwise distinct), make validation report
at least one `circular-relation` conflict; the chain A→B→C with no back
edge yields no `circular-relation` conflict. -/
theorem cycle_detection (s s2 : Spec) (a na b nb c nc : String)
    (fa fb fc : List Field) (ta tb tc rta rtb rtc : String)
    (hnd : ([a, na, b, nb, c, nc] : List String).Nodup)
    (htb : tb = b ∨ tb = nb) (htc : tc = c ∨ tc = nc) (hta : ta = a ∨ ta = na)
    (hcyc : s.entities = [⟨a, na, fa, [⟨tb, rtb⟩]⟩, ⟨b, nb, fb, [⟨tc, rtc⟩]⟩,
                          ⟨c, nc, fc, [⟨ta, rta⟩]⟩])
    (hchain : s2.entities = [⟨a, na, fa, [⟨tb, rtb⟩]⟩, ⟨b, nb, fb, [⟨tc, rtc⟩]⟩,
                             ⟨c, nc, fc, []⟩]) :
    (∃ cf ∈ validateSpec s, cf.type = ConflictType.circularRelation) ∧
    (∀ cf ∈ validateSpec s2, cf.type ≠ ConflictType.circularRelation) := by
  simp only [List.nodup_cons, List.mem_cons, List.mem_singleton, List.not_mem_nil, or_false,
    List.nodup_nil, and_true, not_or] at hnd
  obtain ⟨⟨h1, h2, h3, h4, h5⟩, ⟨h6, h7, h8, h9⟩, ⟨h10, h11, h12⟩, ⟨h13, h14⟩, h15, -⟩ := hnd
  constructor
  · have hcirc : ∃ cf ∈ validateCircularRelations
        [⟨a, na, fa, [⟨tb, rtb⟩]⟩, ⟨b, nb, fb, [⟨tc, rtc⟩]⟩, ⟨c, nc, fc, [⟨ta, rta⟩]⟩],
        cf.type = ConflictType.circularRelation := by
      rcases htb with rfl | rfl <;> rcases htc with rfl | rfl <;> rcases hta with rfl | rfl <;>
        simp [validateCircularRelations, dfsAll, visit, visitRelsWith, resolveTarget,
          circularConflict, List.find?_cons_of_neg, List.find?_cons_of_pos, beq_iff_eq,
          h1, h2, h3, h4, h5, h6, h7, h8, h9, h10, h11, h12, h13, h14, h15,
          Ne.symm h1, Ne.symm h2, Ne.symm h3, Ne.symm h4, Ne.symm h5, Ne.symm h6,
          Ne.symm h7, Ne.symm h8, Ne.symm h9, Ne.symm h10, Ne.symm h11, Ne.symm h12,
          Ne.symm h13, Ne.symm h14, Ne.symm h15]
    obtain ⟨cf, hm, ht⟩ := hcirc
    refine ⟨cf, ?_, ht⟩
    unfold validateSpec validateSpecCore
    rw [hcyc]
    exact List.mem_append_right _ hm
  · intro cf hcf
    unfold validateSpec validateSpecCore at hcf
    rw [hchain] at hcf
    have hcirc0 : validateCircularRelations
        [⟨a, na, fa, [⟨tb, rtb⟩]⟩, ⟨b, nb, fb, [⟨tc, rtc⟩]⟩, ⟨c, nc, fc, []⟩] = [] := by
      rcases htb with rfl | rfl <;> rcases htc with rfl | rfl <;>
        simp [validateCircularRelations, dfsAll, visit, visitRelsWith, resolveTarget,
          List.find?_cons_of_neg, List.find?_cons_of_pos, beq_iff_eq,
          h1, h2, h3, h4, h5, h6, h7, h8, h9, h10, h11, h12, h13, h14, h15,
          Ne.symm h1, Ne.symm h2, Ne.symm h3, Ne.symm h4, Ne.symm h5, Ne.symm h6,
          Ne.symm h7, Ne.symm h8, Ne.symm h9, Ne.symm h10, Ne.symm h11, Ne.symm h12,
          Ne.symm h13, Ne.symm h14, Ne.symm h15]
    rw [hcirc0, List.append_nil] at hcf
    rcases List.mem_append.mp hcf with h | h
    · rcases validateEntitiesPass_types _ _ cf h with ht | ht <;> simp [ht]
    · simp [validateEndpointsPass_types _ _ cf h]

/-- C5 witness. -/
theorem cycle_detection_witness :
    (∃ cf ∈ validateSpec (embedSpec []
        [⟨"a", "A", [], [⟨"b", "r"⟩]⟩, ⟨"b", "B", [], [⟨"c", "r"⟩]⟩,
         ⟨"c", "C", [], [⟨"a", "r"⟩]⟩] [] (.mk .nil)),
      cf.type = ConflictType.circularRelation) ∧
    (∀ cf ∈ validateSpec (embedSpec []
        [⟨"a", "A", [], [⟨"b", "r"⟩]⟩, ⟨"b", "B", [], [⟨"c", "r"⟩]⟩,
         ⟨"c", "C", [], []⟩] [] (.mk .nil)),
      cf.type ≠ ConflictType.circularRelation) :=
  cycle_detection
    (embedSpec [] [⟨"a", "A", [], [⟨"b", "r"⟩]⟩, ⟨"b", "B", [], [⟨"c", "r"⟩]⟩,
      ⟨"c", "C", [], [⟨"a", "r"⟩]⟩] [] (.mk .nil))
    (embedSpec [] [⟨"a", "A", [], [⟨"b", "r"⟩]⟩, ⟨"b", "B", [], [⟨"c", "r"⟩]⟩,
      ⟨"c", "C", [], []⟩] [] (.mk .nil))
    "a" "A" "b" "B" "c" "C" [] [] [] "a" "b" "c" "r" "r" "r"
    (by decide) (Or.inl rfl) (Or.inl rfl) (Or.inl rfl) rfl rfl

-- Characterization of the duplicate-name/field pass on a conflict-free
-- spec, and preservation of that state under a rename to the empty string
-- when no other entity is named "".

theorem validateEntitiesPass_nil_intro : ∀ (es : List Entity) (seen : List String),
    (∀ e ∈ es, e.fields.filter (fun f => f.name == "" || f.type == "") = []) →
    ((es.map fun e => e.name).Nodup) →
    (∀ e ∈ es, ¬ e.name ∈ seen) →
    validateEntitiesPass es seen = [] := by
  intro es
  induction es with
  | nil => intro seen _ _ _; rfl
  | cons e rest ih =>
    intro seen h1 h2 h3
    have hcont : seen.contains e.name = false := by
      have := h3 e (by simp)
      simpa using this
    have hfc : fieldConflictsOf e = [] := by
      unfold fieldConflictsOf
      rw [h1 e (by simp)]
      rfl
    simp only [validateEntitiesPass, hcont, Bool.false_eq_true, if_false, hfc,
      List.nil_append]
    apply ih
    · intro e' he'; exact h1 e' (by simp [he'])
    · simp only [List.map_cons, List.nodup_cons] at h2; exact h2.2
    · intro e' he'
      simp only [List.mem_append, List.mem_singleton, not_or]
      refine ⟨h3 e' (by simp [he']), ?_⟩
      simp only [List.map_cons, List.nodup_cons] at h2
      intro hq
      exact h2.1 (hq ▸ List.mem_map.mpr ⟨e', he', rfl⟩)

theorem validateEntitiesPass_nil_elim : ∀ (es : List Entity) (seen : List String),
    validateEntitiesPass es seen = [] →
    (∀ e ∈ es, e.fields.filter (fun f => f.name == "" || f.type == "") = []) ∧
    ((es.map fun e => e.name).Nodup) ∧
    (∀ e ∈ es, ¬ e.name ∈ seen) := by
  intro es
  induction es with
  | nil => intro seen _; exact ⟨by simp, by simp, by simp⟩
  | cons e rest ih =>
    intro seen h
    unfold validateEntitiesPass at h
    split at h
    · exact absurd h (by simp)
    · next hcont =>
      rw [List.append_eq_nil] at h
      obtain ⟨hfc, hrest⟩ := h
      obtain ⟨r1, r2, r3⟩ := ih (seen ++ [e.name]) hrest
      have hfields : e.fields.filter (fun f => f.name == "" || f.type == "") = [] := by
        unfold fieldConflictsOf at hfc
        exact List.map_eq_nil_iff.mp hfc
      refine ⟨?_, ?_, ?_⟩
      · intro e' he'
        rcases List.mem_cons.mp he' with rfl | he'
        · exact hfields
        · exact r1 e' he'
      · simp only [List.map_cons, List.nodup_cons]
        refine ⟨?_, r2⟩
        intro hmem
        obtain ⟨e', he', hn⟩ := List.mem_map.mp hmem
        have := r3 e' he'
        simp [hn] at this
      · intro e' he'
        rcases List.mem_cons.mp he' with rfl | he'
        · simpa using hcont
        · have := r3 e' he'
          simp only [List.mem_append] at this
          exact fun hq => this (Or.inl hq)

-- The empty-name rename: the patched entity keeps id, relations, fields.

theorem entRel_emptyRename (e : Entity) :
    EntRel e (applyEntityPatch e ⟨none, some "", none, none⟩) := ⟨rfl, rfl, rfl⟩

theorem updateFirst_forall₂_entRel (p : Entity → Bool) (l : List Entity) :
    List.Forall₂ EntRel l
      (updateFirst p (fun item => applyEntityPatch item ⟨none, some "", none, none⟩) l) := by
  induction l with
  | nil => exact List.Forall₂.nil
  | cons a rest ih =>
    unfold updateFirst
    split
    · exact List.Forall₂.cons (entRel_emptyRename a)
        (List.forall₂_same.mpr fun e _ => ⟨rfl, rfl, rfl⟩)
    · exact List.Forall₂.cons ⟨rfl, rfl, rfl⟩ ih

theorem forall₂_mem_right {α β : Type} {R : α → β → Prop} :
    ∀ {l1 : List α} {l2 : List β}, List.Forall₂ R l1 l2 → ∀ b ∈ l2, ∃ a ∈ l1, R a b := by
  intro l1 l2 h
  induction h with
  | nil => intro b hb; simp at hb
  | cons hab hrest ih =>
    intro b hb
    rcases List.mem_cons.mp hb with rfl | hb
    · exact ⟨_, by simp, hab⟩
    · obtain ⟨a, ha, hr⟩ := ih b hb
      exact ⟨a, by simp [ha], hr⟩

theorem updateFirst_names_mem (p : Entity → Bool) : ∀ (l : List Entity) (x : String),
    x ∈ ((updateFirst p (fun item => applyEntityPatch item ⟨none, some "", none, none⟩) l).map
      fun e => e.name) →
    x ∈ (l.map fun e => e.name) ∨ x = "" := by
  intro l
  induction l with
  | nil => intro x hx; simp [updateFirst] at hx
  | cons a rest ih =>
    intro x hx
    unfold updateFirst at hx
    split at hx
    · simp only [List.map_cons, List.mem_cons] at hx
      rcases hx with hx | hx
      · exact Or.inr (by simpa [applyEntityPatch] using hx)
      · exact Or.inl (by simp [hx])
    · simp only [List.map_cons, List.mem_cons] at hx
      rcases hx with hx | hx
      · exact Or.inl (by simp [hx])
      · rcases ih x hx with h | h
        · exact Or.inl (by simp [h])
        · exact Or.inr h

theorem updateFirst_names_nodup (p : Entity → Bool) : ∀ (l : List Entity),
    ((l.map fun e => e.name).Nodup) →
    (∀ e ∈ l, e.name ≠ "") →
    (((updateFirst p (fun item => applyEntityPatch item ⟨none, some "", none, none⟩) l).map
      fun e => e.name).Nodup) := by
  intro l
  induction l with
  | nil => intro _ _; simp [updateFirst]
  | cons a rest ih =>
    intro hnd hne
    simp only [List.map_cons, List.nodup_cons] at hnd
    unfold updateFirst
    split
    · simp only [List.map_cons, List.nodup_cons]
      refine ⟨?_, hnd.2⟩
      intro hmem
      obtain ⟨e', he', hn⟩ := List.mem_map.mp hmem
      exact hne e' (by simp [he']) (by simpa [applyEntityPatch] using hn)
    · simp only [List.map_cons, List.nodup_cons]
      refine ⟨?_, ih hnd.2 (fun e he => hne e (by simp [he]))⟩
      intro hmem
      rcases updateFirst_names_mem p rest a.name hmem with h | h
      · exact hnd.1 h
      · exact hne a (by simp) h

-- DFS simulation: two entity lists that agree pointwise on ids, relations
-- and fields, and whose target resolution is related on every target
-- occurring in the first list, drive the circular-relation DFS in
-- lockstep; in particular the conflict lists have equal length.

theorem mem_allTargets (l : List Entity) (e : Entity) (he : e ∈ l) (r : Relation)
    (hr : r ∈ e.relations) : r.target ∈ allTargets l := by
  unfold allTargets
  rw [List.mem_flatMap]
  exact ⟨e, he, List.mem_map.mpr ⟨r, hr, rfl⟩⟩

theorem resolveTarget_mem (l : List Entity) (t : String) (e : Entity)
    (h : resolveTarget l t = some e) : e ∈ l :=
  List.mem_of_find?_eq_some h

theorem visitRelsWith_sim (l1 l2 : List Entity)
    (hres : ∀ t ∈ allTargets l1, optEntRel (resolveTarget l1 t) (resolveTarget l2 t))
    (f1 f2 : Entity → DfsState → Bool × DfsState)
    (hf : ∀ e1 e2 st1 st2, e1 ∈ l1 → EntRel e1 e2 → StRel st1 st2 →
      (f1 e1 st1).1 = (f2 e2 st2).1 ∧ StRel (f1 e1 st1).2 (f2 e2 st2).2) :
    ∀ rels, (∀ r ∈ rels, r.target ∈ allTargets l1) → ∀ st1 st2, StRel st1 st2 →
      (visitRelsWith f1 l1 rels st1).1 = (visitRelsWith f2 l2 rels st2).1 ∧
      StRel (visitRelsWith f1 l1 rels st1).2 (visitRelsWith f2 l2 rels st2).2 := by
  intro rels
  induction rels with
  | nil => intro _ st1 st2 hst; exact ⟨rfl, hst⟩
  | cons r rest ih =>
    intro htgt st1 st2 hst
    have hr := hres r.target (htgt r (by simp))
    simp only [visitRelsWith]
    cases hr1 : resolveTarget l1 r.target with
    | none =>
      cases hr2 : resolveTarget l2 r.target with
      | none => exact ih (fun r' hr' => htgt r' (by simp [hr'])) st1 st2 hst
      | some te2 =>
        rw [hr1, hr2] at hr
        exact hr.elim
    | some te1 =>
      cases hr2 : resolveTarget l2 r.target with
      | none =>
        rw [hr1, hr2] at hr
        exact hr.elim
      | some te2 =>
        rw [hr1, hr2] at hr
        have hmem : te1 ∈ l1 := resolveTarget_mem l1 r.target te1 hr1
        have hstep := hf te1 te2 st1 st2 hmem hr hst
        rcases hb1 : f1 te1 st1 with ⟨b1, st1x⟩
        rcases hb2 : f2 te2 st2 with ⟨b2, st2x⟩
        rw [hb1, hb2] at hstep
        obtain ⟨hbeq, hstx⟩ := hstep
        have hb : b1 = b2 := hbeq
        subst hb
        have hstx2 : StRel st1x st2x := hstx
        simp only [hb1, hb2]
        cases b1 with
        | true => exact ⟨rfl, hstx2⟩
        | false => exact ih (fun rq hrq => htgt rq (by simp [hrq])) st1x st2x hstx2

theorem visit_sim (l1 l2 : List Entity)
    (hres : ∀ t ∈ allTargets l1, optEntRel (resolveTarget l1 t) (resolveTarget l2 t)) :
    ∀ fuel (e1 e2 : Entity) (st1 st2 : DfsState), e1 ∈ l1 → EntRel e1 e2 → StRel st1 st2 →
      (visit l1 fuel e1 st1).1 = (visit l2 fuel e2 st2).1 ∧
      StRel (visit l1 fuel e1 st1).2 (visit l2 fuel e2 st2).2 := by
  intro fuel
  induction fuel with
  | zero => intro e1 e2 st1 st2 _ _ hst; exact ⟨rfl, hst⟩
  | succ n ih =>
    intro e1 e2 st1 st2 hmem hrel hst
    obtain ⟨hid, hrels, hflds⟩ := hrel
    obtain ⟨hv, hs, hc⟩ := hst
    simp only [visit, ← hid, ← hs, ← hv, ← hrels]
    cases hcond : st1.stack.contains e1.id with
    | true =>
      simp only [hcond, if_true]
      exact ⟨by simp, by simp, by simp, by simp [hc]⟩
    | false =>
      simp only [hcond, Bool.false_eq_true, if_false]
      cases hcond2 : st1.visited.contains e1.id with
      | true =>
        simp only [hcond2, if_true]
        refine ⟨by trivial, by trivial, by trivial, ?_⟩
        simpa using hc
      | false =>
        simp only [hcond2, Bool.false_eq_true, if_false]
        have hrec := visitRelsWith_sim l1 l2 hres (visit l1 n) (visit l2 n)
          (fun a1 a2 t1 t2 ha har hts => ih a1 a2 t1 t2 ha har hts)
          e1.relations (fun r hr => mem_allTargets l1 e1 hmem r hr)
          ⟨st1.visited ++ [e1.id], st1.stack ++ [e1.id], st1.conflicts⟩
          ⟨st1.visited ++ [e1.id], st1.stack ++ [e1.id], st2.conflicts⟩
          ⟨rfl, rfl, hc⟩
        rcases hb1 : visitRelsWith (visit l1 n) l1 e1.relations
            ⟨st1.visited ++ [e1.id], st1.stack ++ [e1.id], st1.conflicts⟩ with ⟨b1, st1x⟩
        rcases hb2 : visitRelsWith (visit l2 n) l2 e1.relations
            ⟨st1.visited ++ [e1.id], st1.stack ++ [e1.id], st2.conflicts⟩ with ⟨b2, st2x⟩
        rw [hb1, hb2] at hrec
        obtain ⟨hbeq, hrelx⟩ := hrec
        have hb : b1 = b2 := hbeq
        subst hb
        have hv2 : st1x.visited = st2x.visited := hrelx.1
        have hs2 : st1x.stack = st2x.stack := hrelx.2.1
        have hc2 : st1x.conflicts.length = st2x.conflicts.length := hrelx.2.2
        cases b1 with
        | true => exact ⟨rfl, hv2, hs2, hc2⟩
        | false => exact ⟨rfl, hv2, congrArg (fun l => List.erase l e1.id) hs2, hc2⟩

theorem dfsAll_sim (l1 l2 : List Entity) (fuel : Nat)
    (hres : ∀ t ∈ allTargets l1, optEntRel (resolveTarget l1 t) (resolveTarget l2 t)) :
    ∀ (iter1 : List Entity) (iter2 : List Entity), List.Forall₂ EntRel iter1 iter2 →
      (∀ e ∈ iter1, e ∈ l1) → ∀ st1 st2, StRel st1 st2 →
      StRel (dfsAll l1 fuel iter1 st1) (dfsAll l2 fuel iter2 st2) := by
  intro iter1 iter2 hforall
  induction hforall with
  | nil => intro _ st1 st2 hst; exact hst
  | @cons e1 e2 rest1 rest2 hpair hrest ih =>
    intro hmem st1 st2 hst
    have hid : e1.id = e2.id := hpair.1
    obtain ⟨hv, hs, hc⟩ := hst
    simp only [dfsAll, ← hid, ← hv]
    cases hcond : st1.visited.contains e1.id with
    | true =>
      simp only [hcond, if_true]
      exact ih (fun e he => hmem e (by simp [he])) st1 st2 ⟨hv, hs, hc⟩
    | false =>
      simp only [hcond, Bool.false_eq_true, if_false]
      have hvisit := visit_sim l1 l2 hres fuel e1 e2 st1 st2
        (hmem e1 (by simp)) hpair ⟨hv, hs, hc⟩
      exact ih (fun e he => hmem e (by simp [he])) _ _ hvisit.2

theorem validateCircularRelations_sim (l1 l2 : List Entity)
    (hforall : List.Forall₂ EntRel l1 l2)
    (hres : ∀ t ∈ allTargets l1, optEntRel (resolveTarget l1 t) (resolveTarget l2 t)) :
    (validateCircularRelations l1).length = (validateCircularRelations l2).length := by
  have hlen : l1.length = l2.length := List.Forall₂.length_eq hforall
  unfold validateCircularRelations
  rw [← hlen]
  exact (dfsAll_sim l1 l2 (l1.length + 1) hres l1 l2 hforall (fun e he => he)
    ⟨[], [], []⟩ ⟨[], [], []⟩ ⟨rfl, rfl, rfl⟩).2.2

theorem find?_entrel (t : String) : ∀ (l1 l2 : List Entity),
    List.Forall₂ (fun e1 e2 => EntRel e1 e2 ∧
      ((e1.name == t || e1.id == t) = (e2.name == t || e2.id == t))) l1 l2 →
    optEntRel (resolveTarget l1 t) (resolveTarget l2 t) := by
  intro l1 l2 h
  induction h with
  | nil => exact trivial
  | @cons a b l1x l2x hpair hrest ih =>
    obtain ⟨hrel, hpred⟩ := hpair
    unfold resolveTarget
    cases hp : (a.name == t || a.id == t) with
    | false =>
      rw [List.find?_cons_of_neg _ (by simp [hp]),
        List.find?_cons_of_neg _ (by simp [← hpred, hp])]
      exact ih
    | true =>
      rw [List.find?_cons_of_pos _ (by simp [hp]),
        List.find?_cons_of_pos _ (by simp [← hpred, hp])]
      exact hrel

theorem updateFirst_resolve_forall₂ (p : Entity → Bool) (E : Entity) (t : String)
    (ht0 : t ≠ "") (htE : t ≠ E.name) :
    ∀ (l : List Entity), l.find? p = some E →
    List.Forall₂ (fun e1 e2 => EntRel e1 e2 ∧
      ((e1.name == t || e1.id == t) = (e2.name == t || e2.id == t)))
      l (updateFirst p (fun item => applyEntityPatch item ⟨none, some "", none, none⟩) l) := by
  intro l
  induction l with
  | nil => intro h; simp at h
  | cons a rest ih =>
    intro hfind
    unfold updateFirst
    cases hpa : p a with
    | true =>
      simp only [hpa, if_true]
      have haE : a = E := by
        rw [List.find?_cons_of_pos _ (by simp [hpa])] at hfind
        exact Option.some.inj hfind
      have h1 : (a.name == t) = false := by
        simp only [beq_eq_false_iff_ne, ne_eq]
        intro hq
        exact htE (by rw [← hq, haE])
      have h2 : (("" : String) == t) = false := by
        simp only [beq_eq_false_iff_ne, ne_eq]
        intro hq
        exact ht0 hq.symm
      refine List.Forall₂.cons ⟨entRel_emptyRename a, ?_⟩
        (List.forall₂_same.mpr fun e _ => ⟨⟨rfl, rfl, rfl⟩, rfl⟩)
      simp only [applyEntityPatch, Option.getD_some, Option.getD_none, h1, h2]
    | false =>
      simp only [hpa, Bool.false_eq_true, if_false]
      have hfindr : rest.find? p = some E := by
        rw [List.find?_cons_of_neg _ (by simp [hpa])] at hfind
        exact hfind
      exact List.Forall₂.cons ⟨⟨rfl, rfl, rfl⟩, rfl⟩ (ih hfindr)

/-- C10 counterexample: a spec that validates cleanly (entity "2" is
*named* the empty string, which the validator never flags) on which the
claimed updateEntity-to-empty-name does NOT succeed with zero conflicts:
renaming entity "1" to "" collides with the existing ""-named entity and
the post-hoc validator reports one duplicate-name conflict. -/
theorem update_to_empty_name_counterexample :
    validateSpec (embedSpec [] [⟨"1", "A", [], []⟩, ⟨"2", "", [], []⟩] [] (.mk .nil)) = [] ∧
    (applyChangeRequestToSpec
        (embedSpec [] [⟨"1", "A", [], []⟩, ⟨"2", "", [], []⟩] [] (.mk .nil))
        ⟨"s", [.updateEntity "1" ⟨none, some "", none, none⟩]⟩).conflicts.length = 1 :=
  ⟨by decide, by decide⟩

/-- C10 amended: on a cleanly-validating spec, updating the first entity
with id `eid` by a patch that sets `name` to the empty string succeeds
with zero conflicts — the apply-time rename collision check is skipped
(empty string is falsy), the empty name is assigned, and the validator
raises nothing — *provided additionally* that no entity of the spec is
named the empty string and no relation target equals the empty string or
the updated entity's current name (otherwise the rename can create a
duplicate name or change name-based relation resolution; see the
counterexample). -/
theorem update_to_empty_name_succeeds (s : Spec) (eid : String) (E : Entity)
    (summary : String)
    (hfind : (s.entities.find? fun item => item.id == eid) = some E)
    (hvalid : validateSpec s = [])
    (hnoempty : ∀ e ∈ s.entities, e.name ≠ "")
    (htgt : ∀ e ∈ s.entities, ∀ r ∈ e.relations, r.target ≠ "" ∧ r.target ≠ E.name) :
    (applyChangeRequestToSpec s
        ⟨summary, [.updateEntity eid ⟨none, some "", none, none⟩]⟩).conflicts = [] ∧
    (applyChangeRequestToSpec s
        ⟨summary, [.updateEntity eid ⟨none, some "", none, none⟩]⟩).spec.entities =
      updateFirst (fun item => item.id == eid)
        (fun item => applyEntityPatch item ⟨none, some "", none, none⟩) s.entities := by
  unfold validateSpec validateSpecCore at hvalid
  rw [List.append_eq_nil] at hvalid
  obtain ⟨hAB, hC⟩ := hvalid
  rw [List.append_eq_nil] at hAB
  obtain ⟨hA, hB⟩ := hAB
  obtain ⟨hfields, hnames, -⟩ := validateEntitiesPass_nil_elim s.entities [] hA
  have hforall := updateFirst_forall₂_entRel (fun item => item.id == eid) s.entities
  have hA2 : validateEntitiesPass (updateFirst (fun item => item.id == eid)
      (fun item => applyEntityPatch item ⟨none, some "", none, none⟩) s.entities) [] = [] := by
    apply validateEntitiesPass_nil_intro
    · intro e2 he2
      obtain ⟨e1, he1, hrel⟩ := forall₂_mem_right hforall e2 he2
      rw [← hrel.2.2]
      exact hfields e1 he1
    · exact updateFirst_names_nodup (fun item => item.id == eid) s.entities hnames hnoempty
    · simp
  have hres : ∀ t ∈ allTargets s.entities,
      optEntRel (resolveTarget s.entities t)
        (resolveTarget (updateFirst (fun item => item.id == eid)
          (fun item => applyEntityPatch item ⟨none, some "", none, none⟩) s.entities) t) := by
    intro t ht
    unfold allTargets at ht
    rw [List.mem_flatMap] at ht
    obtain ⟨e, he, hmt⟩ := ht
    obtain ⟨r, hr, rfl⟩ := List.mem_map.mp hmt
    obtain ⟨h0, hE⟩ := htgt e he r hr
    exact find?_entrel _ _ _
      (updateFirst_resolve_forall₂ (fun item => item.id == eid) E _ h0 hE s.entities hfind)
  have hC2len := validateCircularRelations_sim s.entities
    (updateFirst (fun item => item.id == eid)
      (fun item => applyEntityPatch item ⟨none, some "", none, none⟩) s.entities)
    hforall hres
  have hC2 : validateCircularRelations (updateFirst (fun item => item.id == eid)
      (fun item => applyEntityPatch item ⟨none, some "", none, none⟩) s.entities) = [] := by
    rw [hC, List.length_nil] at hC2len
    exact List.length_eq_zero.mp hC2len.symm
  have hcore1 : (updateEntityCore s.entities eid ⟨none, some "", none, none⟩).1 =
      updateFirst (fun item => item.id == eid)
        (fun item => applyEntityPatch item ⟨none, some "", none, none⟩) s.entities := by
    simp [updateEntityCore, hfind, updateEntityMerge]
  have hcore2 : (updateEntityCore s.entities eid ⟨none, some "", none, none⟩).2.1 = [] := by
    simp [updateEntityCore, hfind, updateEntityMerge]
  simp only [applyChangeRequestToSpec, applyChangeRequestToSpecSt, List.foldl_cons,
    List.foldl_nil, applyOpSt, applyOpPure, deepCopySpec_id, hcore1, hcore2]
  constructor
  · simp only [List.nil_append, List.append_nil]
    show validateSpec _ = []
    unfold validateSpec validateSpecCore
    simp only []
    rw [hA2, hB, hC2]
    rfl
  · trivial

/-- C10 witness for the amended statement. -/
theorem update_to_empty_name_succeeds_witness :
    (applyChangeRequestToSpec (embedSpec [] [⟨"1", "A", [], []⟩] [] (.mk .nil))
        ⟨"s", [.updateEntity "1" ⟨none, some "", none, none⟩]⟩).conflicts = [] ∧
    (applyChangeRequestToSpec (embedSpec [] [⟨"1", "A", [], []⟩] [] (.mk .nil))
        ⟨"s", [.updateEntity "1" ⟨none, some "", none, none⟩]⟩).spec.entities =
      updateFirst (fun item => item.id == "1")
        (fun item => applyEntityPatch item ⟨none, some "", none, none⟩)
        (embedSpec [] [⟨"1", "A", [], []⟩] [] (.mk .nil)).entities :=
  update_to_empty_name_succeeds (embedSpec [] [⟨"1", "A", [], []⟩] [] (.mk .nil)) "1"
    ⟨"1", "A", [], []⟩ "s" (by decide) (by decide)
    (by intro e he; simp [embedSpec] at he; simp [he])
    (by intro e he r hr; simp [embedSpec] at he; simp [he] at hr)

end Hub
